import Mathlib

/-!
# Verification of the abstract type matcher (`pytype/matcher.py`)

This file gives a shallow embedding of the matcher in `pytype/matcher.py` and
proves or refutes the frozen claims about it.

Modelling conventions:
* The universe of abstract values (`abstract.BaseValue`) is the inductive `Val`
  below, covering the variants the matcher dispatches on.  Fields that the
  matcher reads (`full_name`, `constraints`, `bound`, `mro`, `is_protocol`,
  `protocol_attributes`, `is_dynamic`, `members`, ...) are constructor
  arguments; accessor functions mirror the Python attribute reads.
* `cfg.Variable` objects are modelled by their observable content: a variable
  id together with the list of bindings `(binding-id, data)`.  Substitutions
  (`datatypes.AliasingDict`) are association lists from type-parameter name to
  variable; the union-find alias map is not modelled (no claim depends on it).
* Matcher state (the two recursion caches and the error fields set by
  `AbstractMatcher.__init__`) is the structure `MState`, threaded explicitly.
* External collaborators of the matcher (annotation utils, the convert
  service, the attribute handler, and the recursive self-calls into sibling
  matcher methods) are parameters, gathered in the structure `Ext` or passed
  as explicit function arguments, so each embedded function is a faithful
  translation of exactly one Python function body.
* Python `==` on abstract values is modelled by structural equality.
-/

set_option autoImplicit false

namespace PytypeMatcher

/-- The kind of `instance` a `TypeParameterInstance` is attached to.  The
matcher only distinguishes `abstract.CallableClass`, `function.Signature`,
the sentinel `abstract_utils.DUMMY_CONTAINER`, and everything else. -/
inductive TPIInst : Type where
  | callableCls
  | signature
  | dummy
  | otherInst
  deriving DecidableEq, Repr

/-- The universe of abstract values (`abstract.BaseValue`) as dispatched on by
the matcher.  `CfgB`-shaped fields `(Nat × Val)` are cfg bindings
(binding id, data); `(String × Nat × List (Nat × Val))` entries are named
instance type parameters holding a variable (variable id, bindings). -/
inductive Val : Type where
  /-- `abstract.TypeParameter`: symbolic variable with name, fully qualified
  name, constraint list and optional bound. -/
  | typeParameter (name fullName : String) (constraints : List Val)
      (bound : Option Val)
  /-- `abstract.TypeParameterInstance`: a type parameter (fields inlined)
  bound to a particular instance, abstracted to its kind. -/
  | typeParamInstance (name fullName : String) (constraints : List Val)
      (bound : Option Val) (inst : TPIInst)
  /-- `typing_overlay.NoReturn`. -/
  | noReturn
  /-- `abstract.Unknown`. -/
  | unknown
  /-- `abstract.Unsolvable`. -/
  | unsolvable
  /-- `abstract.Empty`. -/
  | empty
  /-- `abstract.Union` of options. -/
  | union (options : List Val)
  /-- `abstract.FinalAnnotation` wrapping `Final[T]`. -/
  | finalAnn (wrapped : Val)
  /-- A plain `abstract.Class` (PyTDClass / InterpreterClass): full name,
  `is_protocol`, `protocol_attributes`, `has_protocol_base`, `is_dynamic`,
  `is_enum`, `get_own_attributes()`, and the MRO (a list of class values). -/
  | simpleClass (fullName : String) (isProtocol : Bool)
      (protocolAttributes : List String) (protocolBase : Bool)
      (isDynamic : Bool) (isEnum : Bool) (ownAttributes : List String)
      (mro : List Val)
  /-- `abstract.ParameterizedClass`: base class plus named formal type
  parameters. -/
  | paramClass (base : Val) (params : List (String × Val))
  /-- `abstract.TupleClass`: fixed-arity tuple, a `ParameterizedClass`
  subclass. -/
  | tupleClass (base : Val) (params : List (String × Val))
  /-- `abstract.CallableClass`: indexed argument parameters, the `ARGS`
  union pseudo-parameter and the `RET` parameter. -/
  | callableClass (base : Val) (argParams : List Val) (argsParam : Val)
      (retParam : Val)
  /-- `abstract.LiteralClass` holding its value. -/
  | literalClass (base : Val) (value : Val)
  /-- `typed_dict.TypedDictClass` with its props: declared fields and the
  set of required keys. -/
  | typedDictClass (fullName : String) (fields : List (String × Val))
      (required : List String)
  /-- `abstract.ConcreteValue`: a literal constant with its `pyval`
  (represented opaquely as a string token). -/
  | concreteValue (cls : Val) (pyval : String)
  /-- `abstract.Instance` (a `SimpleValue`): class, `name`, `members`, and
  named instance type parameters (each a variable: id plus bindings). -/
  | instanceV (cls : Val) (name : String) (members : List String)
      (tparams : List (String × Nat × List (Nat × Val)))
  /-- `abstract.Dict`: a dict instance with class, `members` and concrete
  `pyval` (key to value-variable bindings). -/
  | dictV (cls : Val) (members : List String)
      (pyval : List (String × List (Nat × Val)))
  deriving Repr

/-- A cfg binding: binding id plus the value it points to. -/
abbrev CfgB : Type := Nat × Val

/-- A cfg variable, observably: its id and its bindings. -/
abbrev PVar : Type := Nat × List CfgB

/-- A view: one chosen binding per variable id. -/
abbrev View : Type := List (Nat × CfgB)

/-- A substitution (`datatypes.AliasingDict`): map from type-parameter name to
a variable. -/
abbrev Subst : Type := List (String × PVar)

namespace Val

mutual

/-- Structural equality on abstract values, modelling Python `==`. -/
def beq : Val → Val → Bool
  | typeParameter n f cs b, typeParameter n' f' cs' b' =>
      n == n' && f == f' && beqL cs cs' && beqO b b'
  | typeParamInstance n f cs b i, typeParamInstance n' f' cs' b' i' =>
      n == n' && f == f' && beqL cs cs' && beqO b b' && i == i'
  | noReturn, noReturn => true
  | unknown, unknown => true
  | unsolvable, unsolvable => true
  | empty, empty => true
  | union os, union os' => beqL os os'
  | finalAnn w, finalAnn w' => beq w w'
  | simpleClass fn p pa pb d e oa mro, simpleClass fn' p' pa' pb' d' e' oa' mro' =>
      fn == fn' && p == p' && pa == pa' && pb == pb' && d == d' && e == e' &&
      oa == oa' && beqL mro mro'
  | paramClass b ps, paramClass b' ps' => beq b b' && beqSP ps ps'
  | tupleClass b ps, tupleClass b' ps' => beq b b' && beqSP ps ps'
  | callableClass b args ap rp, callableClass b' args' ap' rp' =>
      beq b b' && beqL args args' && beq ap ap' && beq rp rp'
  | literalClass b v, literalClass b' v' => beq b b' && beq v v'
  | typedDictClass fn fs req, typedDictClass fn' fs' req' =>
      fn == fn' && beqSP fs fs' && req == req'
  | concreteValue c pv, concreteValue c' pv' => beq c c' && pv == pv'
  | instanceV c n m tp, instanceV c' n' m' tp' =>
      beq c c' && n == n' && m == m' && beqTP tp tp'
  | dictV c m pv, dictV c' m' pv' => beq c c' && m == m' && beqDP pv pv'
  | _, _ => false

/-- `beq` lifted to lists of values. -/
def beqL : List Val → List Val → Bool
  | [], [] => true
  | v :: vs, w :: ws => beq v w && beqL vs ws
  | _, _ => false

/-- `beq` lifted to optional values. -/
def beqO : Option Val → Option Val → Bool
  | none, none => true
  | some v, some w => beq v w
  | _, _ => false

/-- `beq` lifted to named-parameter lists. -/
def beqSP : List (String × Val) → List (String × Val) → Bool
  | [], [] => true
  | (n, v) :: vs, (n', w) :: ws => n == n' && beq v w && beqSP vs ws
  | _, _ => false

/-- `beq` lifted to binding lists. -/
def beqNP : List (Nat × Val) → List (Nat × Val) → Bool
  | [], [] => true
  | (n, v) :: vs, (n', w) :: ws => n == n' && beq v w && beqNP vs ws
  | _, _ => false

/-- `beq` lifted to instance type-parameter tables. -/
def beqTP : List (String × Nat × List (Nat × Val)) →
    List (String × Nat × List (Nat × Val)) → Bool
  | [], [] => true
  | (n, i, v) :: vs, (n', i', w) :: ws => n == n' && i == i' && beqNP v w && beqTP vs ws
  | _, _ => false

/-- `beq` lifted to dict pyvals. -/
def beqDP : List (String × List (Nat × Val)) → List (String × List (Nat × Val)) → Bool
  | [], [] => true
  | (n, v) :: vs, (n', w) :: ws => n == n' && beqNP v w && beqDP vs ws
  | _, _ => false

end

instance : BEq Val := ⟨beq⟩

/-- `full_name` attribute reads. -/
def fullName : Val → String
  | typeParameter _ fn _ _ => fn
  | typeParamInstance _ fn _ _ _ => fn
  | simpleClass fn _ _ _ _ _ _ _ => fn
  | paramClass base _ => base.fullName
  | tupleClass base _ => base.fullName
  | callableClass base _ _ _ => base.fullName
  | literalClass base _ => base.fullName
  | typedDictClass fn _ _ => fn
  | _ => ""

/-- `name` attribute (short name) where the matcher reads it. -/
def shortName : Val → String
  | typeParameter n _ _ _ => n
  | typeParamInstance n _ _ _ _ => n
  | instanceV _ n _ _ => n
  | _ => ""

/-- `isinstance(v, abstract.TypeParameter)`. -/
def isTypeParameter : Val → Bool
  | typeParameter _ _ _ _ => true
  | _ => false

/-- `isinstance(v, abstract.Class)`: all class-like variants. -/
def isClass : Val → Bool
  | simpleClass _ _ _ _ _ _ _ _ => true
  | paramClass _ _ => true
  | tupleClass _ _ => true
  | callableClass _ _ _ _ => true
  | literalClass _ _ => true
  | typedDictClass _ _ _ => true
  | _ => false

/-- `isinstance(v, abstract.ParameterizedClass)` (`TupleClass`,
`CallableClass` and `LiteralClass` are subclasses). -/
def isParameterizedClass : Val → Bool
  | paramClass _ _ => true
  | tupleClass _ _ => true
  | callableClass _ _ _ _ => true
  | literalClass _ _ => true
  | _ => false

/-- `base_cls` of a `ParameterizedClass`. -/
def baseCls : Val → Val
  | paramClass base _ => base
  | tupleClass base _ => base
  | callableClass base _ _ _ => base
  | literalClass base _ => base
  | v => v

/-- `isinstance(v, abstract.AMBIGUOUS)` = `(Unknown, Unsolvable)`. -/
def isAmbiguous : Val → Bool
  | unknown => true
  | unsolvable => true
  | _ => false

/-- `isinstance(v, abstract.AMBIGUOUS_OR_EMPTY)` =
`(Unknown, Unsolvable, Empty)`. -/
def isAmbiguousOrEmpty : Val → Bool
  | unknown => true
  | unsolvable => true
  | empty => true
  | _ => false

/-- `isinstance(v, abstract.Union)`. -/
def isUnion : Val → Bool
  | union _ => true
  | _ => false

/-- `isinstance(v, abstract.TypeParameterInstance)`. -/
def isTypeParamInstance : Val → Bool
  | typeParamInstance _ _ _ _ _ => true
  | _ => false

/-- `isinstance(v, typing_overlay.NoReturn)`. -/
def isNoReturn : Val → Bool
  | noReturn => true
  | _ => false

/-- `isinstance(v, abstract.Unsolvable)`. -/
def isUnsolvable : Val → Bool
  | unsolvable => true
  | _ => false

/-- `isinstance(v, abstract.Empty)`. -/
def isEmptyVal : Val → Bool
  | empty => true
  | _ => false

/-- `isinstance(v, abstract.TupleClass)`. -/
def isTupleClass : Val → Bool
  | tupleClass _ _ => true
  | _ => false

/-- `isinstance(v, abstract.CallableClass)`. -/
def isCallableClass : Val → Bool
  | callableClass _ _ _ _ => true
  | _ => false

/-- `isinstance(v, abstract.LiteralClass)`. -/
def isLiteralClass : Val → Bool
  | literalClass _ _ => true
  | _ => false

/-- `isinstance(v, typed_dict.TypedDictClass)`. -/
def isTypedDictClass : Val → Bool
  | typedDictClass _ _ _ => true
  | _ => false

/-- `isinstance(v, abstract.Dict)`. -/
def isDict : Val → Bool
  | dictV _ _ _ => true
  | _ => false

/-- `isinstance(v, abstract.ConcreteValue)`. -/
def isConcreteValue : Val → Bool
  | concreteValue _ _ => true
  | _ => false

/-- The `cls` attribute of a value, where the matcher reads it. -/
def clsV : Val → Val
  | instanceV cls _ _ _ => cls
  | dictV cls _ _ => cls
  | concreteValue cls _ => cls
  | v@(simpleClass _ _ _ _ _ _ _ _) => v
  | _ => unsolvable

/-- The `mro` attribute of a class (parameterized classes delegate to their
base class). -/
def mroOf : Val → List Val
  | simpleClass _ _ _ _ _ _ _ mro => mro
  | paramClass base _ => base.mroOf
  | tupleClass base _ => base.mroOf
  | callableClass base _ _ _ => base.mroOf
  | literalClass base _ => base.mroOf
  | _ => []

/-- The `is_protocol` attribute of a class. -/
def isProtocol : Val → Bool
  | simpleClass _ p _ _ _ _ _ _ => p
  | paramClass base _ => base.isProtocol
  | tupleClass base _ => base.isProtocol
  | callableClass base _ _ _ => base.isProtocol
  | literalClass base _ => base.isProtocol
  | _ => false

/-- The `protocol_attributes` attribute of a class. -/
def protocolAttributes : Val → List String
  | simpleClass _ _ pa _ _ _ _ _ => pa
  | paramClass base _ => base.protocolAttributes
  | tupleClass base _ => base.protocolAttributes
  | callableClass base _ _ _ => base.protocolAttributes
  | literalClass base _ => base.protocolAttributes
  | _ => []

/-- The `has_protocol_base()` method of a class. -/
def hasProtocolBase : Val → Bool
  | simpleClass _ _ _ pb _ _ _ _ => pb
  | paramClass base _ => base.hasProtocolBase
  | tupleClass base _ => base.hasProtocolBase
  | callableClass base _ _ _ => base.hasProtocolBase
  | literalClass base _ => base.hasProtocolBase
  | _ => false

/-- The `is_dynamic` attribute of a class. -/
def isDynamic : Val → Bool
  | simpleClass _ _ _ _ d _ _ _ => d
  | paramClass base _ => base.isDynamic
  | tupleClass base _ => base.isDynamic
  | callableClass base _ _ _ => base.isDynamic
  | literalClass base _ => base.isDynamic
  | _ => false

/-- The `is_enum` attribute of a class. -/
def isEnum : Val → Bool
  | simpleClass _ _ _ _ _ e _ _ => e
  | paramClass base _ => base.isEnum
  | tupleClass base _ => base.isEnum
  | callableClass base _ _ _ => base.isEnum
  | literalClass base _ => base.isEnum
  | _ => false

/-- The `get_own_attributes()` method of a class. -/
def ownAttributes : Val → List String
  | simpleClass _ _ _ _ _ _ oa _ => oa
  | paramClass base _ => base.ownAttributes
  | tupleClass base _ => base.ownAttributes
  | callableClass base _ _ _ => base.ownAttributes
  | literalClass base _ => base.ownAttributes
  | _ => []

/-- `num_args` of a `CallableClass`. -/
def numArgs : Val → Nat
  | callableClass _ args _ _ => args.length
  | _ => 0

/-- `formal_type_parameters[i]` of a `CallableClass` (indexed argument). -/
def argParam (v : Val) (i : Nat) : Val :=
  match v with
  | callableClass _ args _ _ => args.getD i unsolvable
  | _ => unsolvable

/-- The `constraints` attribute of a type parameter. -/
def tpConstraints : Val → List Val
  | typeParameter _ _ cs _ => cs
  | typeParamInstance _ _ cs _ _ => cs
  | _ => []

/-- The `bound` attribute of a type parameter. -/
def tpBound : Val → Option Val
  | typeParameter _ _ _ b => b
  | typeParamInstance _ _ _ b _ => b
  | _ => none

mutual

/-- Modelled from the spec: the `formal` flag of an abstract value — "a type
containing at least one unresolved type parameter"; "Union: `formal` iff any
option is formal" (`abstract` package, not under `src/`). -/
def formal : Val → Bool
  | typeParameter _ _ _ _ => true
  | union os => formalL os
  | finalAnn w => formal w
  | paramClass _ ps => formalSP ps
  | tupleClass _ ps => formalSP ps
  | callableClass _ args ap rp => formalL args || formal ap || formal rp
  | _ => false

/-- `formal` over a list of options. -/
def formalL : List Val → Bool
  | [] => false
  | v :: vs => formal v || formalL vs

/-- `formal` over named parameters. -/
def formalSP : List (String × Val) → Bool
  | [] => false
  | (_, v) :: vs => formal v || formalSP vs

end

end Val

/-- Modelled from the spec: `abstract_utils.T`, the conventional name of the
single type parameter of containers (the matcher itself also uses the literal
string at its non-iterable-str check). -/
def paramT : String := "_T"

/-- Modelled from the spec: `abstract_utils.ARGS`, the `Args` pseudo-parameter
of a callable ("unions all arguments"). -/
def paramARGS : String := "_ARGS"

/-- Modelled from the spec: `abstract_utils.RET`, the return parameter of a
callable. -/
def paramRET : String := "_RET"

/-- `get_formal_type_parameter` of a parameterized class; a `CallableClass`
resolves the `ARGS` and `RET` pseudo-parameters from its dedicated fields.
A missing parameter resolves to `Any` (`unsolvable`). -/
def Val.getFormalTypeParameter : Val → String → Val
  | .paramClass _ ps, t => (List.lookup t ps).getD .unsolvable
  | .tupleClass _ ps, t => (List.lookup t ps).getD .unsolvable
  | .literalClass _ _, _ => .unsolvable
  | .callableClass _ _ ap rp, t =>
      if t == paramARGS then ap else if t == paramRET then rp else .unsolvable
  | _, _ => .unsolvable

mutual

/-- Modelled from the spec: `annotation_utils.get_type_parameters(type)` —
collects the type parameters appearing in an annotation, one occurrence per
appearance (the matcher counts occurrences with `collections.Counter`). -/
def getTypeParameters : Val → List Val
  | v@(Val.typeParameter _ _ _ _) => [v]
  | .union os => getTypeParametersL os
  | .finalAnn w => getTypeParameters w
  | .paramClass _ ps => getTypeParametersSP ps
  | .tupleClass _ ps => getTypeParametersSP ps
  | .callableClass _ args ap rp =>
      getTypeParametersL args ++ getTypeParameters ap ++ getTypeParameters rp
  | _ => []

/-- `getTypeParameters` over a list of annotations. -/
def getTypeParametersL : List Val → List Val
  | [] => []
  | v :: vs => getTypeParameters v ++ getTypeParametersL vs

/-- `getTypeParameters` over named parameters. -/
def getTypeParametersSP : List (String × Val) → List Val
  | [] => []
  | (_, v) :: vs => getTypeParameters v ++ getTypeParametersSP vs

end

/-- Modelled from the spec: `_COMPATIBLE_BUILTINS` — the fixed list of
compatible-builtin pairs "(`int`/`float`, `bytes`/`bytearray`, etc.)" for
which a match of the first satisfies the second, with the `builtins.` prefix
attached as in `matcher.py`. -/
def compatibleBuiltins : List (String × String) :=
  [("builtins.int", "builtins.float"), ("builtins.bytes", "builtins.bytearray")]

/-! ## Substitution operations

`datatypes.AliasingDict` behaves as a dict from type-parameter name to
variable; `subst.copy()` is a shallow dict copy (pure values make it the
identity here), `name in subst` is key membership and `subst[name] = var`
replaces in place or appends. -/

/-- `subst[name]` (callers only index names known to be present; a missing
name resolves to an empty variable). -/
def substLookup (s : Subst) (n : String) : PVar :=
  (List.lookup n s).getD (0, [])

/-- `name in subst`. -/
def substContains (s : Subst) (n : String) : Bool :=
  (List.lookup n s).isSome

/-- `subst[name] = var`. -/
def substSet : Subst → String → PVar → Subst
  | [], n, v => [(n, v)]
  | (m, w) :: rest, n, v =>
      if m == n then (n, v) :: rest else (m, w) :: substSet rest n v

/-- `Variable.PasteVariable`: add the bindings of the second variable that the
first does not already have (binding identity by binding id). -/
def pasteVar (v w : PVar) : PVar :=
  (v.1, v.2 ++ w.2.filter (fun b => !(v.2.any (fun c => c.1 == b.1))))

/-! ## Matcher state and error records -/

/-- The protocol errors of `matcher.py` (`ProtocolMissingAttributesError`,
`ProtocolTypeError`), by their payloads. -/
inductive ProtocolErr : Type where
  | missingAttrs (leftType otherType : Val) (missing : List String)
  | typeErr (leftType otherType : Val) (attrName : String)
      (actual expected : List Val)
  deriving Repr

/-- `TypedDictError(bad, extra, missing)`.  A `bad` entry is
`(key, value-bindings, declared type, bad-view tokens)`; the bad views
returned by the recursive `bad_matches` call are opaque tokens here. -/
structure TypedDictErr : Type where
  bad : List (String × List CfgB × Val × List Nat)
  extra : List String
  missing : List String
  deriving Repr

/-- The mutable fields of `AbstractMatcher` (set in `__init__`): the two
recursion-breaker caches and the four error slots. -/
structure MState : Type where
  protocolCache : List (Val × Val)
  recursiveAnnotsCache : List (Val × Val)
  protocolError : Option ProtocolErr
  noniterableStrError : Option (Val × Val)
  typedDictError : Option TypedDictErr
  errorSubst : Option Subst

/-- `AbstractMatcher.__init__`: empty caches, no errors. -/
def initState : MState :=
  { protocolCache := []
    recursiveAnnotsCache := []
    protocolError := none
    noniterableStrError := none
    typedDictError := none
    errorSubst := none }

/-- `ErrorDetails` as packaged by `AbstractMatcher._error_details`. -/
structure ErrorDetails : Type where
  protocolE : Option ProtocolErr
  noniterableStr : Option (Val × Val)
  typedDict : Option TypedDictErr

/-- `AbstractMatcher._error_details()`. -/
def errorDetails (st : MState) : ErrorDetails :=
  { protocolE := st.protocolError
    noniterableStr := st.noniterableStrError
    typedDict := st.typedDictError }

/-- A `cfg.Binding` as passed to `_match_value_against_type`: the binding
itself plus its variable's bindings (`value.variable.bindings`). -/
structure BindingCtx : Type where
  selfB : CfgB
  varBindings : List CfgB

/-- The type of the matcher's recursive self-call
(`self._match_value_against_type`), abstracted so that each embedded function
is the translation of exactly one Python function body. -/
abbrev Recur : Type :=
  MState → BindingCtx → Val → Subst → View → MState × Option Subst

/-- External collaborators of the matcher (annotation utils, convert service,
attribute machinery) and the sibling matcher methods that the embedded
functions call, as opaque function parameters. -/
structure Ext : Type where
  /-- `abstract_utils.is_recursive_annotation`. -/
  isRecursiveAnnot : Val → Bool
  /-- The formal-left rewrite: `sub_one_annotation` replacing every type
  parameter of the value with an `object` instance. -/
  rewriteFormalLeft : Val → Val
  /-- `convert.get_maybe_abstract_instance`. -/
  getMaybeAbstractInstance : Val → Val
  /-- `Binding.data.get_type_key()`, as an abstract key. -/
  getTypeKey : Val → Nat
  /-- `self._instantiate_and_match` (instantiate left, match against right). -/
  instantiateAndMatch : MState → Val → Val → Subst → View → MState × Option Subst
  /-- `self._match_type_against_type`. -/
  matchTypeAgainstType : MState → Val → Val → Subst → View → MState × Option Subst
  /-- `self._match_protocol_attribute`. -/
  matchProtocolAttribute : MState → Val → Val → String → Subst → View →
    MState × Option Subst
  /-- `self._match_maybe_parameterized_instance` (base, instance, formal). -/
  matchMaybeParameterizedInstance : MState → Val → Val → Val → Subst → View →
    MState × Option Subst
  /-- `self._match_instance` (base, instance, formal). -/
  matchInstanceExt : MState → Val → Val → Val → Subst → View →
    MState × Option Subst
  /-- `t.instantiate(node, DUMMY_CONTAINER)` packed into a variable. -/
  instantiateToVar : Val → PVar
  /-- `annotation_utils.sub_one_annotation(node, formal, [error_subst])`. -/
  subOneAnn : Subst → Val → Val
  /-- The recursive `self.bad_matches` call made by the typed-dict matcher
  (bad views abstracted to tokens). -/
  badMatchesExt : MState → List CfgB → Val → MState × List Nat
  /-- `view[var]` lookup for `match_var_against_type`. -/
  lookupView : View → PVar → CfgB

/-- The data of an `abstract.TypeParameter` as read by
`_match_type_param_against_type_param`. -/
structure TypeParamD : Type where
  name : String
  fullName : String
  constraints : List Val
  bound : Option Val

/-- View a type-parameter value as its data. -/
def Val.asTypeParamD : Val → TypeParamD
  | .typeParameter n fn cs b => ⟨n, fn, cs, b⟩
  | .typeParamInstance n fn cs b _ => ⟨n, fn, cs, b⟩
  | v => ⟨v.shortName, v.fullName, [], none⟩

namespace AbstractMatcher

/-- `AbstractMatcher._unwrap_final`: unwrap `Final[T] -> T`, both for
`FinalAnnotation` wrappers and for instances of the `typing.Final` sentinel
class (whose `T` instance parameter holds the wrapped type;
`get_atomic_value` of a non-atomic parameter raises, modelled as returning
the value unchanged). -/
def unwrapFinal (val : Val) : Val :=
  match val with
  | .finalAnn w => w
  | .instanceV cls _ _ tparams =>
      if cls.fullName == "typing.Final" then
        match List.lookup paramT tparams with
        | some (_, [(_, v)]) => v
        | _ => val
      else val
  | _ => val

/-- `AbstractMatcher._merge_substs` on variable contents: copy the base
substitution, then install each incoming `(name, var)` pair or paste the
incoming variable's bindings into the existing entry (skipping when the two
variables are identical).  The in-place aliasing effect of `PasteVariable` is
modelled separately by `mergeSubstsHeap` below. -/
def mergeSubsts (subst : Subst) (newSubsts : List Subst) : Subst :=
  newSubsts.foldl (fun acc ns =>
    ns.foldl (fun acc p =>
      if !substContains acc p.1 then substSet acc p.1 p.2
      else if (substLookup acc p.1).1 != p.2.1 then
        substSet acc p.1 (pasteVar (substLookup acc p.1) p.2)
      else acc) acc) subst

/-- One parameter step of `_subst_with_type_parameters_from`: bind the
parameter's short `name` to an empty-value variable
(`convert.empty.to_variable`) unless already bound. -/
def substFillStep (s : Subst) (p : Val) : Subst :=
  if !substContains s p.shortName then
    substSet s p.shortName (0, [(0, .empty)])
  else s

/-- `AbstractMatcher._subst_with_type_parameters_from`: give every type
parameter of `typ` not already bound (keyed by its short `name`) an
empty-value variable. -/
def substWithTypeParametersFrom (subst : Subst) (typ : Val) : Subst :=
  (getTypeParameters typ).foldl substFillStep subst

/-- `AbstractMatcher._discard_ambiguous_values`: keep only concrete values —
drop ambiguous values, unions and type-parameter instances, and values whose
class is ambiguous. -/
def discardAmbiguousValues (values : List Val) : List Val :=
  values.filter (fun v =>
    !(v.isAmbiguousOrEmpty || v.isUnion || v.isTypeParamInstance) &&
    !(v.clsV.isAmbiguousOrEmpty))

/-- `AbstractMatcher._satisfies_single_type`: after removing the first member
of any fully present compatible-builtin pair, the set of class names must be
a singleton (or empty). -/
def satisfiesSingleType (values : List Val) : Bool :=
  let classNames := (values.map (fun v => v.clsV.fullName)).eraseDups
  let classNames := compatibleBuiltins.foldl (fun ns p =>
    if ns.contains p.1 && ns.contains p.2 then ns.erase p.1 else ns) classNames
  decide (classNames.length ≤ 1)

/-- `AbstractMatcher._satisfies_common_superclass`: the values' classes must
share a superclass (by full name, with compatible-builtin names added) other
than the universal roots; the root filter is skipped when `object` itself is
one of the values (`v.cls == ctx.convert.object_type` modelled by full
name). -/
def satisfiesCommonSuperclass (values : List Val) : Bool :=
  let r := values.foldl (fun (acc : Bool × Option (List String)) v =>
    let objectIn := acc.1 || (v.clsV.fullName == "builtins.object")
    let superclasses := (v.clsV.mroOf).map Val.fullName
    let superclasses := compatibleBuiltins.foldl (fun ss p =>
      if ss.contains p.1 then ss ++ [p.2] else ss) superclasses
    let common := match acc.2 with
      | none => some superclasses
      | some cc => some (cc.filter (fun c => superclasses.contains c))
    (objectIn, common)) (false, none)
  let ignored := if r.1 then ([] : List String)
    else ["builtins.object", "typing.Generic", "typing.Protocol"]
  if !values.isEmpty then
    match r.2 with
    | some cc => !(cc.all (fun c => ignored.contains c))
    | none => true
  else true

/-- `AbstractMatcher._satisfies_noniterable_str`: reject matching
`str`/`unicode` against a `_T`-parameterization of the four conflicting
iterable types whose element parameter is itself a str type. -/
def satisfiesNoniterableStr (left otherType : Val) : Bool :=
  let conflictingIterTypes :=
    ["typing.Iterable", "typing.Sequence", "typing.Collection",
     "typing.Container"]
  let strTypes := ["builtins.str", "builtins.unicode"]
  if !(conflictingIterTypes.contains otherType.fullName) ||
     !(strTypes.contains left.fullName) then
    true
  else if otherType.isParameterizedClass then
    !(strTypes.contains (otherType.getFormalTypeParameter paramT).fullName)
  else
    true

/-- The MRO loop of `AbstractMatcher.match_from_mro`; `other_type.base_cls is
base_cls` (object identity) is modelled by structural equality. -/
def matchFromMroLoop (otherType : Val) (allowCompatBuiltins : Bool) :
    List Val → Option Val
  | [] => none
  | base :: rest =>
    let baseCls := if base.isParameterizedClass then base.baseCls else base
    if baseCls.isClass then
      if otherType.fullName == baseCls.fullName ||
         (otherType.isParameterizedClass && otherType.baseCls == baseCls) ||
         (allowCompatBuiltins &&
           compatibleBuiltins.contains (baseCls.fullName, otherType.fullName))
      then some base
      else matchFromMroLoop otherType allowCompatBuiltins rest
    else if baseCls.isAmbiguous then some baseCls
    else matchFromMroLoop otherType allowCompatBuiltins rest

/-- `AbstractMatcher.match_from_mro`: walk `left`'s MRO for an entry matching
the formal type (ambiguous entries are wildcards, `Empty` and non-class
entries are skipped). -/
def matchFromMro (left otherType : Val) (allowCompatBuiltins : Bool) :
    Option Val :=
  matchFromMroLoop otherType allowCompatBuiltins left.mroOf

/-- The `for t in t1.constraints` loop at the end of
`_match_type_param_against_type_param`: every constraint must match `t2`'s
bound (each attempt starts from the same substitution; the per-constraint
results are discarded and the original substitution is returned). -/
def tpConstraintsAllLoop
    (im : MState → Val → Val → Subst → View → MState × Option Subst)
    (b2 : Val) (subst : Subst) (view : View) :
    MState → List Val → MState × Option Subst
  | st, [] => (st, some subst)
  | st, c :: cs =>
    match im st c b2 subst view with
    | (st', none) => (st', none)
    | (st', some _) => tpConstraintsAllLoop im b2 subst view st' cs

/-- `AbstractMatcher._match_type_param_against_type_param` with
`self._instantiate_and_match` abstracted as `im`.  (The source asserts that
`t2` never has both constraints and a bound; behaviour below the assert is
translated as coded.) -/
def matchTypeParamAgainstTypeParam
    (im : MState → Val → Val → Subst → View → MState × Option Subst)
    (st : MState) (t1 t2 : TypeParamD) (subst : Subst) (view : View) :
    MState × Option Subst :=
  if !t2.constraints.isEmpty then
    if t1.constraints.isEmpty then (st, none)
    else if t1.constraints.any (fun c => !(t2.constraints.contains c)) then
      (st, none)
    else (st, some subst)
  else
    match t2.bound with
    | some b2 =>
      let attempt : MState × Option Subst :=
        match t1.bound with
        | some b1 => im st b1 b2 subst view
        | none => (st, none)
      match attempt with
      | (st', some ns) => (st', some ns)
      | (st', none) =>
        if t1.constraints.isEmpty then (st', none)
        else tpConstraintsAllLoop im b2 subst view st' t1.constraints
    | none => (st, some subst)

/-- Occurrence count (`collections.Counter`) of a type parameter in a
collected parameter list, as an integer so that `Counter.subtract` can go
negative. -/
def countOcc (l : List Val) (v : Val) : Int :=
  (l.countP (fun w => w == v) : Nat)

/-- `AbstractMatcher._get_param_matcher`: the special param matcher for
single TypeVars.  The right side must be a bare (unconstrained, unbounded)
type parameter occurring exactly once in the callable (subtracting the
double-counting of a `CallableClass`'s `ARGS` pseudo-parameter); the left
side need only be a type parameter.  On success the right's full name is
bound to an empty-value placeholder (`NewVariable([convert.empty], [])`). -/
def getParamMatcher (callableType : Val) : Val → Val → Subst → Option Subst :=
  let callableParams := getTypeParameters callableType
  let argsParams :=
    if callableType.isCallableClass then
      getTypeParameters (callableType.getFormalTypeParameter paramARGS)
    else []
  fun left right subst =>
    if !left.isTypeParameter || !right.isTypeParameter ||
       !right.tpConstraints.isEmpty || !right.tpBound.isNone ||
       (countOcc callableParams right - countOcc argsParams right != 1) then
      none
    else
      some (substSet subst right.fullName (0, [(0, .empty)]))

/-- Modelled from the spec: a `function.Signature` as consumed by
`_match_signature_against_callable` — parameter names, per-name annotation
dictionary (including the `"return"` key), and the mandatory/maximum
parameter counts. -/
structure PySig : Type where
  paramNames : List String
  annots : List (String × Val)
  mandatoryParamCount : Nat
  maximumParamCount : Option Nat

/-- The per-argument loop of `_match_signature_against_callable`: try the
special param matcher first, otherwise flip actual and expected (argument
contravariance) and match normally via `instantiate_and_match`. -/
def sigArgsLoop (E : Ext) (paramMatch : Val → Val → Subst → Option Subst)
    (annots : List (String × Val)) (view : View) :
    MState → List (String × Val) → Subst → MState × Option Subst
  | st, [], subst => (st, some subst)
  | st, (name, expectedArg) :: rest, subst =>
    let actualArg := (List.lookup name annots).getD .unsolvable
    match paramMatch actualArg expectedArg subst with
    | none =>
      match E.instantiateAndMatch st expectedArg actualArg subst view with
      | (st', none) => (st', none)
      | (st', some s) => sigArgsLoop E paramMatch annots view st' rest s
    | some ns => sigArgsLoop E paramMatch annots view st rest ns

/-- `AbstractMatcher._match_signature_against_callable`. -/
def matchSignatureAgainstCallable (E : Ext) (st : MState) (sig : PySig)
    (otherType : Val) (subst : Subst) (view : View) : MState × Option Subst :=
  let paramMatch := getParamMatcher otherType
  let retType := (List.lookup "return" sig.annots).getD .unsolvable
  let otherRetType := otherType.getFormalTypeParameter paramRET
  let phase1 : MState × Option Subst :=
    match paramMatch retType otherRetType subst with
    | none => E.instantiateAndMatch st retType otherRetType subst view
    | some ns => (st, some ns)
  match phase1 with
  | (st, none) => (st, none)
  | (st, some subst) =>
    if !otherType.isCallableClass then (st, some subst)
    else if sig.mandatoryParamCount > otherType.numArgs then (st, none)
    else
      let maxFail :=
        match sig.maximumParamCount with
        | some mx => decide (mx < otherType.numArgs)
        | none => false
      if maxFail then (st, none)
      else
        let expectedArgs :=
          (List.range otherType.numArgs).map (fun i => otherType.argParam i)
        sigArgsLoop E paramMatch sig.annots view st
          (sig.paramNames.zip expectedArgs) subst

end AbstractMatcher

/-- `isinstance(v, abstract.SimpleValue)`. -/
def Val.isSimpleValue : Val → Bool
  | .instanceV _ _ _ _ => true
  | .dictV _ _ _ => true
  | .concreteValue _ _ => true
  | _ => false

/-- `isinstance(v, abstract.Instance)` (`Dict` and `ConcreteValue` are
instances). -/
def Val.isInstanceKind : Val → Bool
  | .instanceV _ _ _ _ => true
  | .dictV _ _ _ => true
  | .concreteValue _ _ => true
  | _ => false

/-- The `value` of a `LiteralClass`. -/
def Val.literalValue : Val → Val
  | .literalClass _ v => v
  | _ => .unsolvable

/-- The `pyval` of a `ConcreteValue`. -/
def Val.pyvalOf : Val → String
  | .concreteValue _ pv => pv
  | _ => ""

/-- `v.get_instance_type_parameter(name, node)`: the named instance
type-parameter variable (empty when absent). -/
def Val.instanceTypeParameter : Val → String → PVar
  | .instanceV _ _ _ tparams, n =>
      match List.lookup n tparams with
      | some (vid, bs) => (vid, bs)
      | none => (0, [])
  | _, _ => (0, [])

/-- The guard of the `TypeParameterInstance` branch of
`_match_value_against_type`: a type-parameter instance whose `instance` is a
`CallableClass`, a `function.Signature`, or `DUMMY_CONTAINER`. -/
def Val.isCallableTPI : Val → Bool
  | .typeParamInstance _ _ _ _ i =>
      i == TPIInst.callableCls || i == TPIInst.signature || i == TPIInst.dummy
  | _ => false

namespace AbstractMatcher

/-- `AbstractMatcher._get_attribute_names`: explicit members plus all
`get_own_attributes()` along the class MRO, with `__iter__` synthesized when
`__getitem__` is present but `__iter__` is not.  (Membership is set-like;
duplicates in the list are irrelevant.  The `abstract.Module` case only
forces loading of `members` and is not separately modelled.) -/
def getAttributeNames (left : Val) : List String :=
  let leftAttributes : List String :=
    match left with
    | .instanceV _ _ members _ => members
    | .dictV _ members _ => members
    | _ => []
  let leftAttributes := leftAttributes ++
    ((left.clsV.mroOf).filter Val.isClass).foldl
      (fun acc c => acc ++ c.ownAttributes) []
  if leftAttributes.contains "__getitem__" &&
     !(leftAttributes.contains "__iter__") then
    leftAttributes ++ ["__iter__"]
  else leftAttributes

/-- The attribute loop of `_match_against_protocol`: every protocol attribute
must match (via `_match_protocol_attribute`), and the successful
substitutions are merged at the end. -/
def protocolAttrsLoop (E : Ext) (left otherType : Val) (subst : Subst)
    (view : View) :
    MState → List String → List Subst → MState × Option Subst
  | st, [], newSubsts => (st, some (mergeSubsts subst newSubsts))
  | st, attr :: rest, newSubsts =>
    match E.matchProtocolAttribute st left otherType attr subst view with
    | (st', none) => (st', none)
    | (st', some ns) =>
        protocolAttrsLoop E left otherType subst view st' rest
          (newSubsts ++ [ns])

/-- `AbstractMatcher._match_against_protocol`. -/
def matchAgainstProtocol (E : Ext) (st : MState) (left otherType : Val)
    (subst : Subst) (view : View) : MState × Option Subst :=
  if left.clsV.isAmbiguousOrEmpty then (st, some subst)
  else if left.clsV.isDynamic then
    (st, some (substWithTypeParametersFrom subst otherType))
  else
    let leftAttributes := getAttributeNames left
    let missing := otherType.protocolAttributes.filter
      (fun a => !(leftAttributes.contains a))
    if !missing.isEmpty then
      ({ st with
          protocolError := some (.missingAttrs left.clsV otherType missing) },
       none)
    else
      let key := (left.clsV, otherType)
      if st.protocolCache.contains key then (st, some subst)
      else
        let st := { st with protocolCache := st.protocolCache ++ [key] }
        protocolAttrsLoop E left otherType subst view st
          otherType.protocolAttributes []

/-- Modelled from the spec: `typed_dict.TypedDictClass.props.check_keys` —
"compute missing required keys and extra (not-declared) keys" of the given
key set. -/
def checkKeys (required fieldNames keys : List String) :
    List String × List String :=
  (required.filter (fun k => !(keys.contains k)),
   keys.filter (fun k => !(fieldNames.contains k)))

/-- The per-key loop of `_match_dict_against_typed_dict`: for every dict key
that is a declared field, collect the recursive `bad_matches` of its value
variable against the declared type. -/
def tdBadLoop (E : Ext) (fields : List (String × Val)) :
    MState → List (String × List CfgB) →
    List (String × List CfgB × Val × List Nat) →
    MState × List (String × List CfgB × Val × List Nat)
  | st, [], acc => (st, acc)
  | st, (k, v) :: rest, acc =>
    match List.lookup k fields with
    | none => tdBadLoop E fields st rest acc
    | some typ =>
      let r := E.badMatchesExt st v typ
      if !r.2.isEmpty then tdBadLoop E fields r.1 rest (acc ++ [(k, v, typ, r.2)])
      else tdBadLoop E fields r.1 rest acc

/-- `AbstractMatcher._match_dict_against_typed_dict`: clear the typed-dict
error slot, fail on non-dict values, then succeed iff the missing, extra and
bad collections are all empty, recording `TypedDictError(bad, extra,
missing)` otherwise. -/
def matchDictAgainstTypedDict (E : Ext) (st : MState) (left otherType : Val) :
    MState × Bool :=
  let st := { st with typedDictError := none }
  match otherType with
  | .typedDictClass _ fields required =>
    match left with
    | .dictV _ _ pyval =>
      let keys := pyval.map (·.1)
      let mex := checkKeys required (fields.map (·.1)) keys
      let r := tdBadLoop E fields st pyval []
      if !mex.1.isEmpty || !mex.2.isEmpty || !r.2.isEmpty then
        ({ r.1 with typedDictError := some ⟨r.2, mex.2, mex.1⟩ }, false)
      else (r.1, true)
    | _ => (st, false)
  | _ => (st, false)

/-- `AbstractMatcher._match_instance_against_type` (the `_match_instance` and
`_match_maybe_parameterized_instance` continuations are external hooks; the
`NotImplementedError` fallthrough is modelled as no match). -/
def matchInstanceAgainstType (E : Ext) (st : MState) (left otherType : Val)
    (subst : Subst) (view : View) : MState × Option Subst :=
  if otherType.isLiteralClass then
    let otherValue := otherType.literalValue
    if left.isConcreteValue && otherValue.isConcreteValue then
      (st, if left.pyvalOf == otherValue.pyvalOf then some subst else none)
    else if left.isInstanceKind && left.clsV.isEnum &&
        otherValue.isInstanceKind && otherValue.clsV.isEnum then
      (st,
       if left.shortName == otherValue.shortName &&
          left.clsV == otherValue.clsV then some subst else none)
    else (st, none)
  else if otherType.isTypedDictClass then
    match matchDictAgainstTypedDict E st left otherType with
    | (st', false) => (st', none)
    | (st', true) => (st', some subst)
  else if otherType.isClass then
    if !satisfiesNoniterableStr left.clsV otherType then
      ({ st with noniterableStrError := some (left.clsV, otherType) }, none)
    else
      match matchFromMro left.clsV otherType true with
      | none =>
        if otherType.isProtocol then
          let oldCache := st.protocolCache
          let r := matchAgainstProtocol E st left otherType subst view
          ({ r.1 with protocolCache := oldCache }, r.2)
        else if otherType.hasProtocolBase then (st, some subst)
        else (st, none)
      | some base =>
        if base.isAmbiguousOrEmpty then
          E.matchMaybeParameterizedInstance st base left otherType subst view
        else
          E.matchInstanceExt st base left otherType subst view
  else if otherType.isEmptyVal then (st, none)
  else (st, none)

/-- One option step of the empty-variable path of `match_var_against_type`:
a `TypeParameter` option whose full name is not yet bound receives a fresh
empty variable (`var.program.NewVariable()`). -/
def nothingFillStep (s : Subst) (right : Val) : Subst :=
  if right.isTypeParameter && !substContains s right.fullName then
    substSet s right.fullName (0, [])
  else s

/-- `AbstractMatcher.match_var_against_type`: a variable with bindings
delegates to the per-value matcher on the view's chosen binding; a variable
with no bindings (the "nothing" type) matches anything, filling the
substitution with a fresh empty variable for each type-parameter option
(reducing a `TupleClass` to its element parameter first). -/
def matchVarAgainstType (E : Ext) (recur : Recur) (st : MState) (var : PVar)
    (otherType : Val) (subst : Subst) (view : View) : MState × Option Subst :=
  if !var.2.isEmpty then
    recur st ⟨E.lookupView view var, var.2⟩ otherType subst view
  else
    let otherType :=
      if otherType.isTupleClass then otherType.getFormalTypeParameter paramT
      else otherType
    let rightSideOptions :=
      match otherType with
      | .union os => os
      | t => [t]
    let subst := rightSideOptions.foldl nothingFillStep subst
    (st, some subst)

/-- The per-argument loop of `_match_callable_instance`: the special param
matcher first, then normal matching with actual and expected flipped
(argument contravariance). -/
def callableArgsLoop (E : Ext) (paramMatch : Val → Val → Subst → Option Subst)
    (view : View) : MState → List (Val × Val) → Subst → MState × Option Subst
  | st, [], subst => (st, some subst)
  | st, (leftArg, rightArg) :: rest, subst =>
    match paramMatch leftArg rightArg subst with
    | none =>
      match E.instantiateAndMatch st rightArg leftArg subst view with
      | (st', none) => (st', none)
      | (st', some s) => callableArgsLoop E paramMatch view st' rest s
    | some ns => callableArgsLoop E paramMatch view st rest ns

/-- `AbstractMatcher._match_callable_instance`. -/
def matchCallableInstance (E : Ext) (recur : Recur) (st : MState)
    (left inst otherType : Val) (subst : Subst) (view : View) :
    MState × Option Subst :=
  if !inst.isSimpleValue || !otherType.isParameterizedClass then
    (st, some subst)
  else
    match matchVarAgainstType E recur st (inst.instanceTypeParameter paramRET)
        (otherType.getFormalTypeParameter paramRET) subst view with
    | (st', none) => (st', none)
    | (st', some subst) =>
      if !left.isCallableClass || !otherType.isCallableClass then
        (st', some subst)
      else if left.numArgs != otherType.numArgs then (st', none)
      else
        let paramMatch := getParamMatcher otherType
        callableArgsLoop E paramMatch view st'
          ((List.range left.numArgs).map
            (fun i => (left.argParam i, otherType.argParam i))) subst

/-- Python `enumerate`. -/
def pyEnum : Nat → List Val → List (Nat × Val)
  | _, [] => []
  | i, v :: vs => (i, v) :: pyEnum (i + 1) vs

/-- Strict comparison on the union-option sort key `(formal, index)`
(`False < True` on the formal flag). -/
def unionKeyLt (a b : Nat × Val) : Bool :=
  (!a.2.formal && b.2.formal) ||
  (a.2.formal == b.2.formal && decide (a.1 < b.1))

/-- Insertion into a key-sorted list. -/
def unionSortInsert (x : Nat × Val) : List (Nat × Val) → List (Nat × Val)
  | [] => [x]
  | y :: ys =>
      if unionKeyLt x y then x :: y :: ys else y :: unionSortInsert x ys

/-- `sorted(enumerate(options), key=lambda itm: (itm[1].formal, itm[0]))`:
options without type parameters move to the front, original order otherwise
preserved (the keys are all distinct, so any correct sort is stable). -/
def unionSorted : List (Nat × Val) → List (Nat × Val)
  | [] => []
  | x :: xs => unionSortInsert x (unionSorted xs)

/-- The option loop of the Union-right case of `_match_value_against_type`:
try each option; on a match of a non-formal option against a non-ambiguous
value, fill the substitution with the union's type parameters and stop;
otherwise keep accumulating. -/
def unionLoop (recur : Recur) (value : BindingCtx) (unionType : Val)
    (view : View) : MState → List Val → Subst → Bool → MState × Option Subst
  | st, [], subst, matched => (st, if matched then some subst else none)
  | st, t :: rest, subst, matched =>
    match recur st value t subst view with
    | (st', none) => unionLoop recur value unionType view st' rest subst matched
    | (st', some ns) =>
      if value.selfB.2.isAmbiguousOrEmpty || t.formal then
        unionLoop recur value unionType view st' rest ns true
      else
        (st', some (substWithTypeParametersFrom ns unionType))

/-- The Union-right case of `_match_value_against_type`: sort the options so
non-formal ones come first, then run the option loop. -/
def matchUnionRight (recur : Recur) (st : MState) (value : BindingCtx)
    (options : List Val) (unionType : Val) (subst : Subst) (view : View) :
    MState × Option Subst :=
  unionLoop recur value unionType view st
    ((unionSorted (pyEnum 0 options)).map (·.2)) subst false

/-- The `TypeParameterInstance`-left branch of `_match_value_against_type`
(the instance is a callable class, signature, or the dummy container). -/
def matchTPILeft (E : Ext) (st : MState) (left otherType : Val)
    (subst : Subst) (view : View) : MState × Option Subst :=
  match left with
  | .typeParamInstance n fn cs bd inst =>
    if otherType.isTypeParameter then
      let t2 := otherType.asTypeParamD
      match matchTypeParamAgainstTypeParam E.instantiateAndMatch st
          ⟨n, fn, cs, bd⟩ t2 subst view with
      | (st', some ns) => (st', some (substSet ns t2.fullName (0, [])))
      | (st', none) =>
        let leftDummy := E.instantiateToVar (.typeParameter n fn cs bd)
        let rightDummy := E.instantiateToVar (.typeParameter n fn cs bd)
        let errDict : Subst :=
          if n == t2.name then [(n, rightDummy)]
          else [(n, leftDummy), (t2.name, rightDummy)]
        ({ st' with errorSubst := some (mergeSubsts subst [errDict]) }, none)
    else if inst == TPIInst.callableCls then
      E.instantiateAndMatch st otherType (.typeParameter n fn cs bd) subst view
    else
      E.instantiateAndMatch st (.typeParameter n fn cs bd) otherType subst view
  | _ => (st, none)

/-- The constraint loop of the TypeParameter-right case: the value must match
at least one constraint (each attempt starts from the incoming substitution;
the matched substitution itself is discarded). -/
def tpRightConstraintsLoop (recur : Recur) (value : BindingCtx)
    (subst : Subst) (view : View) : MState → List Val → MState × Bool
  | st, [] => (st, false)
  | st, c :: cs =>
    match recur st value c subst view with
    | (st', none) => tpRightConstraintsLoop recur value subst view st' cs
    | (st', some _) => (st', true)

/-- The old-values loop of the TypeParameter-right case: the new concrete
value must share a common superclass with some previously bound concrete
value, or structurally match a previously bound protocol class (protocol
matching wrapped in the protocol-cache snapshot). -/
def tpOldValuesLoop (E : Ext) (left : Val) (view : View) :
    MState → List Val → Subst → MState × Bool × Subst
  | st, [], subst => (st, true, subst)
  | st, old :: rest, subst =>
    if satisfiesCommonSuperclass [left, old] then (st, false, subst)
    else if old.clsV.isProtocol then
      let oldCache := st.protocolCache
      let r := matchAgainstProtocol E st left old.clsV subst view
      let st' := { r.1 with protocolCache := oldCache }
      match r.2 with
      | some ns => (st', false, ns)
      | none => tpOldValuesLoop E left view st' rest subst
    else tpOldValuesLoop E left view st rest subst

/-- The substitution-building phase of the TypeParameter-right case of
`_match_value_against_type` (after constraints and bound have been checked):
build the new variable, apply the single-type or common-superclass policy,
and either record an error substitution or extend the substitution. -/
def tpVarPhase (E : Ext) (st : MState) (value : BindingCtx) (left : Val)
    (tFullName : String) (tCs : List Val) (subst : Subst) (view : View) :
    MState × Option Subst :=
  let newVarB0 : List CfgB :=
    if substContains subst tFullName then
      (substLookup subst tFullName).2 ++ [(0, left)]
    else [(0, E.getMaybeAbstractInstance left)]
  let typeKey := E.getTypeKey left
  let newVarB := newVarB0 ++ value.varBindings.filter (fun ov =>
    ov.1 != value.selfB.1 && E.getTypeKey ov.2 == typeKey)
  if !tCs.isEmpty then
    let newValues := discardAmbiguousValues (newVarB.map (·.2))
    if !satisfiesSingleType newValues then
      ({ st with errorSubst := some subst }, none)
    else
      let newVarB' :=
        if !newValues.isEmpty && decide (newValues.length < newVarB.length)
        then newValues.map (fun v => ((0 : Nat), v))
        else newVarB
      (st, some (substSet subst tFullName (0, newVarB')))
  else if substContains subst tFullName then
    let oldValues := (substLookup subst tFullName).2.map (·.2)
    if !oldValues.isEmpty && !(discardAmbiguousValues [left]).isEmpty then
      let oldConcreteValues := discardAmbiguousValues oldValues
      if oldValues.length == oldConcreteValues.length then
        match tpOldValuesLoop E left view st oldConcreteValues subst with
        | (st', true, s2) => ({ st' with errorSubst := some s2 }, none)
        | (st', false, s2) => (st', some (substSet s2 tFullName (0, newVarB)))
      else (st, some (substSet subst tFullName (0, newVarB)))
    else (st, some (substSet subst tFullName (0, newVarB)))
  else
    if !satisfiesCommonSuperclass
        (discardAmbiguousValues (newVarB.map (·.2))) then
      ({ st with errorSubst := some subst }, none)
    else (st, some (substSet subst tFullName (0, newVarB)))

/-- The TypeParameter-right case of `_match_value_against_type`: check the
parameter's constraints and bound against the value, then build the
substitution entry. -/
def matchTypeParamRight (E : Ext) (recur : Recur) (st : MState)
    (value : BindingCtx) (left : Val) (otherType : Val) (subst : Subst)
    (view : View) : MState × Option Subst :=
  match otherType with
  | .typeParameter _ tFullName tCs tBound =>
    let r := tpRightConstraintsLoop recur value subst view st tCs
    if !tCs.isEmpty && !r.2 then
      ({ r.1 with errorSubst := some subst }, none)
    else
      match tBound with
      | some b =>
        match recur r.1 value b subst view with
        | (st', none) =>
          ({ st' with
              errorSubst := some
                (mergeSubsts subst [[(tFullName, E.instantiateToVar b)]]) },
           none)
        | (st', some _) =>
            tpVarPhase E st' value left tFullName tCs subst view
      | none => tpVarPhase E r.1 value left tFullName tCs subst view
  | _ => (st, none)

/-- One unfolding of `AbstractMatcher._match_value_against_type`: the body of
the dispatcher with the recursive self-call abstracted as `recur`. -/
def matchValueAgainstTypeStep (E : Ext) (recur : Recur) (st : MState)
    (value : BindingCtx) (otherType0 : Val) (subst : Subst) (view : View) :
    MState × Option Subst :=
  let left0 := unwrapFinal value.selfB.2
  let otherType := unwrapFinal otherType0
  if E.isRecursiveAnnot otherType &&
     st.recursiveAnnotsCache.contains (left0, otherType) then
    (st, some subst)
  else
    let st :=
      if E.isRecursiveAnnot otherType then
        { st with
            recursiveAnnotsCache :=
              st.recursiveAnnotsCache ++ [(left0, otherType)] }
      else st
    let left := if left0.formal then E.rewriteFormalLeft left0 else left0
    if left.isCallableTPI then
      matchTPILeft E st left otherType subst view
    else if otherType.isTypeParameter then
      matchTypeParamRight E recur st value left otherType subst view
    else if otherType.isNoReturn || left.isNoReturn then
      (st,
       if left == otherType || otherType.isUnsolvable || left.isUnsolvable
       then some subst else none)
    else if otherType.isClass then
      E.matchTypeAgainstType st left otherType subst view
    else
      match otherType with
      | .union os => matchUnionRight recur st value os otherType subst view
      | _ =>
        if otherType.isAmbiguous || left.isAmbiguous then (st, some subst)
        else if otherType.isEmptyVal then
          E.matchTypeAgainstType st left otherType subst view
        else (st, none)

/-- `function.BadParam` as returned by `compute_subst` on failure. -/
structure BadParam : Type where
  name : String
  expected : Val
  details : ErrorDetails

/-- The state update performed at the entry of `compute_subst` (after the
empty-`arg_dict` early return): only the three error slots are cleared; the
two recursion caches and the typed-dict error slot are untouched. -/
def computeSubstEntry (st : MState) : MState :=
  { st with
      protocolError := none
      noniterableStrError := none
      errorSubst := none }

/-- The argument loop of `compute_subst`: match each formal argument,
remembering the substitution produced by the argument named `self`; on
failure reconstruct the expected type through the error substitution and
return the bad parameter. -/
def computeSubstLoop (E : Ext) (matchFn : Recur)
    (argDict : List (String × BindingCtx)) (view : View) :
    MState → List (String × Val) → Subst → Option Subst →
    MState × Except BadParam (Subst × Option Subst)
  | st, [], subst, selfSubst => (st, .ok (subst, selfSubst))
  | st, (name, formal) :: rest, subst, selfSubst =>
    let actual := (List.lookup name argDict).getD ⟨(0, .unsolvable), []⟩
    match matchFn st actual formal subst view with
    | (st', none) =>
      let expected := E.subOneAnn (st'.errorSubst.getD []) formal
      (st', .error ⟨name, expected, errorDetails st'⟩)
    | (st', some subst') =>
      computeSubstLoop E matchFn argDict view st' rest subst'
        (if name == "self" then some subst' else selfSubst)

/-- `AbstractMatcher.compute_subst` with the per-value matcher
(`self._match_value_against_type`) abstracted as `matchFn`.  A call with an
empty `arg_dict` succeeds immediately with an empty substitution (touching no
state); otherwise the three error slots are reset, the arguments are matched
in order, and type parameters produced by a `self` argument with non-empty
values override the final substitution. -/
def computeSubst (E : Ext) (matchFn : Recur) (st : MState)
    (formalArgs : List (String × Val)) (argDict : List (String × BindingCtx))
    (view : View) : MState × Option Subst × Option BadParam :=
  if argDict.isEmpty then (st, some [], none)
  else
    let st := computeSubstEntry st
    match computeSubstLoop E matchFn argDict view st formalArgs [] none with
    | (st', .error bp) => (st', none, some bp)
    | (st', .ok (subst, selfSubst)) =>
      let subst :=
        match selfSubst with
        | none => subst
        | some ss => ss.foldl (fun s p =>
            if p.2.2.any (fun b => !b.2.isEmptyVal) then substSet s p.1 p.2
            else s) subst
      (st', some subst, none)

/-- The view loop of `bad_matches`: per view, reset the protocol and
non-iterable-str error slots, match, and record failing views that are
reachable (`HasCombination`). -/
def badMatchesLoop
    (matchVarFn : MState → PVar → Val → Subst → View → MState × Option Subst)
    (hasCombination : View → Bool) (var : PVar) (otherType : Val) :
    MState → List View → List (View × ErrorDetails) →
    MState × List (View × ErrorDetails)
  | st, [], acc => (st, acc)
  | st, view :: rest, acc =>
    let st := { st with protocolError := none, noniterableStrError := none }
    match matchVarFn st var otherType [] view with
    | (st', none) =>
      if hasCombination view then
        badMatchesLoop matchVarFn hasCombination var otherType st' rest
          (acc ++ [(view, errorDetails st')])
      else badMatchesLoop matchVarFn hasCombination var otherType st' rest acc
    | (st', some _) =>
        badMatchesLoop matchVarFn hasCombination var otherType st' rest acc

/-- `AbstractMatcher.bad_matches` with `self.match_var_against_type`
abstracted as `matchVarFn` and the control-flow-node service
`HasCombination` as a predicate.  `views` is the realized sequence of views
yielded by `abstract_utils.get_views` under its skip-hint protocol (modelled
from the spec: the generator and its send-based skip hints only select which
views are delivered). -/
def badMatches
    (matchVarFn : MState → PVar → Val → Subst → View → MState × Option Subst)
    (hasCombination : View → Bool) (st : MState) (var : PVar)
    (otherType : Val) (views : List View) :
    MState × List (View × ErrorDetails) :=
  if (var.2.map (·.2)) == [Val.unsolvable] || otherType == Val.unsolvable then
    (st, [])
  else badMatchesLoop matchVarFn hasCombination var otherType st views []

end AbstractMatcher

/-! ## Heap-level model of substitution merging

`Subst` above models variables by their contents.  To analyse the
copy-on-write discipline we also model `_merge_substs` over an explicit heap,
where substitutions map names to variable ids and `PasteVariable` mutates the
heap entry shared by every substitution holding that id. -/

/-- A heap of cfg variables: variable id to the ids of its bindings. -/
abbrev Heap : Type := Nat → List Nat

/-- `Variable.PasteVariable` as a heap effect: extend `dst`'s bindings with
the bindings of `src` it does not already have. -/
def pasteVariableHeap (h : Heap) (dst src : Nat) : Heap :=
  fun v =>
    if v = dst then h dst ++ (h src).filter (fun b => !((h dst).contains b))
    else h v

/-- A substitution at the heap level: names map to variable ids. -/
abbrev SubstH : Type := List (String × Nat)

/-- `AbstractMatcher._merge_substs` at the heap level: `subst.copy()` copies
only the name-to-variable map; for each incoming `(name, var)` pair, either
install the variable under a new name or — when the name is already mapped to
a different variable — `PasteVariable` the incoming bindings into the
existing, possibly shared, variable. -/
def mergeSubstsHeapStep (acc : Heap × SubstH) (p : String × Nat) :
    Heap × SubstH :=
  match List.lookup p.1 acc.2 with
  | none => (acc.1, acc.2 ++ [(p.1, p.2)])
  | some vid =>
      if vid != p.2 then (pasteVariableHeap acc.1 vid p.2, acc.2)
      else acc

/-- `AbstractMatcher._merge_substs` at the heap level: copy the
name-to-variable map, then process every incoming pair by
`mergeSubstsHeapStep`. -/
def mergeSubstsHeap (h : Heap) (subst : SubstH) (newSubsts : List SubstH) :
    Heap × SubstH :=
  newSubsts.foldl (fun acc ns => ns.foldl mergeSubstsHeapStep acc) (h, subst)

/-! ## Concrete instantiations used by the witnesses -/

/-- A trivial set of external services: nothing is a recursive annotation,
instantiation-and-match succeeds with the given substitution, type-vs-type
matching fails, and all conversions are identities. -/
def trivExt : Ext :=
  { isRecursiveAnnot := fun _ => false
    rewriteFormalLeft := id
    getMaybeAbstractInstance := id
    getTypeKey := fun _ => 0
    instantiateAndMatch := fun st _ _ s _ => (st, some s)
    matchTypeAgainstType := fun st _ _ _ _ => (st, none)
    matchProtocolAttribute := fun st _ _ _ s _ => (st, some s)
    matchMaybeParameterizedInstance := fun st _ _ _ s _ => (st, some s)
    matchInstanceExt := fun st _ _ _ s _ => (st, some s)
    instantiateToVar := fun _ => (0, [])
    subOneAnn := fun _ v => v
    badMatchesExt := fun st _ _ => (st, [])
    lookupView := fun view var => (List.lookup var.1 view).getD (0, .unsolvable) }

/-- A trivial recursive self-call: succeed with the given substitution. -/
def trivRecur : Recur := fun st _ _ s _ => (st, some s)

/-- A recursive self-call that always fails, without touching state. -/
def failRecur : Recur := fun st _ _ _ _ => (st, none)

/-- External services under which `unsolvable` counts as a recursive
annotation (driving the recursion cache of the dispatcher). -/
def recExt : Ext := { trivExt with isRecursiveAnnot := Val.isUnsolvable }

/-- The per-value matcher induced by `recExt`: one dispatcher step with a
trivially succeeding self-call. -/
def recMatchFn : Recur := AbstractMatcher.matchValueAgainstTypeStep recExt trivRecur

/-! ## Helper lemmas on association lists -/

@[simp] theorem val_beq_eq (a b : Val) : (a == b) = Val.beq a b := rfl

@[simp] theorem prod_val_beq_eq (a b : Val × Val) :
    (a == b) = (a.1 == b.1 && a.2 == b.2) := rfl

theorem lookup_append_some {α β : Type} [BEq α] {l : List (α × β)}
    (l' : List (α × β)) {a : α} {v : β} (h : List.lookup a l = some v) :
    List.lookup a (l ++ l') = some v := by
  induction l with
  | nil => simp [List.lookup] at h
  | cons p rest ih =>
    simp only [List.cons_append, List.lookup] at h ⊢
    cases hpa : (a == p.1) with
    | true => rw [hpa] at h; exact h
    | false => rw [hpa] at h; exact ih h

theorem lookup_substSet_self (s : Subst) (n : String) (v : PVar) :
    List.lookup n (substSet s n v) = some v := by
  induction s with
  | nil => simp [substSet, List.lookup]
  | cons p rest ih =>
    obtain ⟨k, w⟩ := p
    simp only [substSet]
    split
    · simp [List.lookup]
    · rename_i hne
      simp only [List.lookup]
      have hk : k ≠ n := by simpa using hne
      rw [beq_eq_false_iff_ne.mpr (Ne.symm hk)]
      exact ih

theorem lookup_substSet_ne (s : Subst) {m n : String} (v : PVar)
    (h : m ≠ n) :
    List.lookup m (substSet s n v) = List.lookup m s := by
  induction s with
  | nil =>
    simp only [substSet, List.lookup]
    rw [beq_eq_false_iff_ne.mpr h]
  | cons p rest ih =>
    obtain ⟨k, w⟩ := p
    simp only [substSet]
    split
    · rename_i hkn
      have hk : k = n := by simpa using hkn
      subst hk
      simp only [List.lookup]
      rw [beq_eq_false_iff_ne.mpr h]
    · simp only [List.lookup]
      cases hmk : (m == k) with
      | true => rfl
      | false => exact ih

/-! ## Claim C2: substitutions are copy-on-write -/

theorem pasteVariableHeap_mono {h : Heap} {d s v : Nat} {b : Nat}
    (hb : b ∈ h v) : b ∈ pasteVariableHeap h d s v := by
  unfold pasteVariableHeap
  split
  · rename_i hvd
    subst hvd
    exact List.mem_append_left _ hb
  · exact hb

theorem mergeHeapStep_lookup {acc : Heap × SubstH} {p : String × Nat}
    {a : String} {v : Nat} (h : List.lookup a acc.2 = some v) :
    List.lookup a (mergeSubstsHeapStep acc p).2 = some v := by
  unfold mergeSubstsHeapStep
  cases hl : List.lookup p.1 acc.2 with
  | none => exact lookup_append_some _ h
  | some vid =>
    dsimp only
    split
    · exact h
    · exact h

theorem mergeHeapStep_heapMono {acc : Heap × SubstH} {p : String × Nat}
    {vid b : Nat} (h : b ∈ acc.1 vid) : b ∈ (mergeSubstsHeapStep acc p).1 vid := by
  unfold mergeSubstsHeapStep
  cases hl : List.lookup p.1 acc.2 with
  | none => exact h
  | some w =>
    dsimp only
    split
    · exact pasteVariableHeap_mono h
    · exact h

theorem mergeHeapFoldInner_lookup (ns : SubstH) (acc : Heap × SubstH)
    {a : String} {v : Nat} (h : List.lookup a acc.2 = some v) :
    List.lookup a (ns.foldl mergeSubstsHeapStep acc).2 = some v := by
  induction ns generalizing acc with
  | nil => exact h
  | cons p rest ih => exact ih _ (mergeHeapStep_lookup h)

theorem mergeHeapFoldInner_heapMono (ns : SubstH) (acc : Heap × SubstH)
    {vid b : Nat} (h : b ∈ acc.1 vid) :
    b ∈ (ns.foldl mergeSubstsHeapStep acc).1 vid := by
  induction ns generalizing acc with
  | nil => exact h
  | cons p rest ih => exact ih _ (mergeHeapStep_heapMono h)

theorem mergeHeapFold_lookup (l : List SubstH) (acc : Heap × SubstH)
    {a : String} {v : Nat} (h : List.lookup a acc.2 = some v) :
    List.lookup a (l.foldl (fun acc ns => ns.foldl mergeSubstsHeapStep acc) acc).2
      = some v := by
  induction l generalizing acc with
  | nil => exact h
  | cons ns rest ih => exact ih _ (mergeHeapFoldInner_lookup ns acc h)

theorem mergeHeapFold_heapMono (l : List SubstH) (acc : Heap × SubstH)
    {vid b : Nat} (h : b ∈ acc.1 vid) :
    b ∈ (l.foldl (fun acc ns => ns.foldl mergeSubstsHeapStep acc) acc).1 vid := by
  induction l generalizing acc with
  | nil => exact h
  | cons ns rest ih => exact ih _ (mergeHeapFoldInner_heapMono ns acc h)

/-- C2 (counterexample).  With variable `0` holding binding `1` and variable
`2` holding binding `3`, merging `{T ↦ var 2}` into the substitution
`S = {T ↦ var 0}` leaves `S`'s name-to-variable map unchanged but pastes
binding `3` into the shared variable `0`: after the call, `S` no longer maps
`T` to a variable with the same bindings as before, refuting the claim that
the caller never observes mutation through its input substitution. -/
theorem c2_counterexample :
    (mergeSubstsHeap
        (fun v => if v = 0 then [1] else if v = 2 then [3] else [])
        [("T", 0)] [[("T", 2)]]).2 = [("T", 0)] ∧
    (mergeSubstsHeap
        (fun v => if v = 0 then [1] else if v = 2 then [3] else [])
        [("T", 0)] [[("T", 2)]]).1 0 = [1, 3] ∧
    (fun v => if v = 0 then [1] else if v = 2 then [3] else
      ([] : List Nat)) 0 = [1] := by
  refine ⟨by decide, by decide, by decide⟩

/-- C2 (amended).  `_merge_substs` never mutates the input substitution's
name-to-variable map: the merged map still sends every name of `S` to the
exact same variable, and the map `S` itself is untouched.  However, the
*bindings* of a variable shared between `S` and an incoming substitution may
be extended in place by `PasteVariable` (set union): binding sets only ever
grow, and the caller can observe the new bindings through its input
substitution's variables. -/
theorem c2_amended (h : Heap) (subst : SubstH) (newSubsts : List SubstH) :
    (∀ (n : String) (v : Nat), List.lookup n subst = some v →
      List.lookup n (mergeSubstsHeap h subst newSubsts).2 = some v) ∧
    (∀ (vid b : Nat), b ∈ h vid →
      b ∈ (mergeSubstsHeap h subst newSubsts).1 vid) := by
  constructor
  · intro n v hv
    exact mergeHeapFold_lookup newSubsts (h, subst) hv
  · intro vid b hb
    exact mergeHeapFold_heapMono newSubsts (h, subst) hb

/-- C2 (witness): the amended theorem applied at the counterexample's input:
the name `T` still maps to variable `0`, and binding `1` survives in
variable `0`. -/
theorem c2_witness :
    List.lookup "T"
      (mergeSubstsHeap
        (fun v => if v = 0 then [1] else if v = 2 then [3] else [])
        [("T", 0)] [[("T", 2)]]).2 = some 0 ∧
    1 ∈ (mergeSubstsHeap
        (fun v => if v = 0 then [1] else if v = 2 then [3] else [])
        [("T", 0)] [[("T", 2)]]).1 0 := by
  constructor
  · exact (c2_amended _ _ _).1 "T" 0 (by decide)
  · exact (c2_amended _ _ _).2 0 1 (by decide)

/-! ## Claim C9: type-parameter against type-parameter -/

theorem tpLoop_all_some
    (im : MState → Val → Val → Subst → View → MState × Option Subst)
    (b2 : Val) (subst : Subst) (view : View) (cs : List Val) (st : MState)
    (h : ∀ c ∈ cs, ∀ s, ((im s c b2 subst view).2).isSome = true) :
    (AbstractMatcher.tpConstraintsAllLoop im b2 subst view st cs).2
      = some subst := by
  induction cs generalizing st with
  | nil => rfl
  | cons c rest ih =>
    have hc := h c (List.mem_cons_self c rest) st
    simp only [AbstractMatcher.tpConstraintsAllLoop]
    cases him : im st c b2 subst view with
    | mk st' r =>
      cases r with
      | none => rw [him] at hc; simp at hc
      | some ns =>
        exact ih st' (fun c' hc' s => h c' (List.mem_cons_of_mem _ hc') s)

theorem tpLoop_exists_none
    (im : MState → Val → Val → Subst → View → MState × Option Subst)
    (b2 : Val) (subst : Subst) (view : View) (cs : List Val) (st : MState) :
    (∃ c ∈ cs, ∀ s, (im s c b2 subst view).2 = none) →
    (AbstractMatcher.tpConstraintsAllLoop im b2 subst view st cs).2
      = none := by
  induction cs generalizing st with
  | nil =>
    intro h
    obtain ⟨c, hc, _⟩ := h
    simp at hc
  | cons c rest ih =>
    intro h
    simp only [AbstractMatcher.tpConstraintsAllLoop]
    cases him : im st c b2 subst view with
    | mk st' r =>
      cases r with
      | none => rfl
      | some ns =>
        obtain ⟨c', hc', hfail⟩ := h
        rcases List.mem_cons.mp hc' with h1 | h2
        · subst h1
          have := hfail st
          rw [him] at this
          simp at this
        · exact ih st' ⟨c', h2, hfail⟩

/-- C9.  `_match_type_param_against_type_param`: (never-both is the source's
asserted input invariant) when the right parameter has constraints, the match
succeeds — returning the substitution unchanged — exactly when the left also
has constraints and the left constraint set is a subset of the right's; when
the right parameter has a bound instead, the match succeeds if the left's
bound (when present) matches the right's bound (returning that match's
substitution), and otherwise only if the left has constraints and every one
of them matches the right's bound. -/
theorem c9_type_param_matching
    (im : MState → Val → Val → Subst → View → MState × Option Subst)
    (st : MState) (t1 t2 : TypeParamD) (subst : Subst) (view : View)
    (_hmx : t2.constraints.isEmpty = false → t2.bound = none) :
    (t2.constraints.isEmpty = false →
      AbstractMatcher.matchTypeParamAgainstTypeParam im st t1 t2 subst view =
        (st,
         if (!t1.constraints.isEmpty &&
             t1.constraints.all (fun c => t2.constraints.contains c)) = true
         then some subst else none)) ∧
    (∀ b2 : Val, t2.constraints = [] → t2.bound = some b2 →
      (∀ b1 st' ns, t1.bound = some b1 →
        im st b1 b2 subst view = (st', some ns) →
        AbstractMatcher.matchTypeParamAgainstTypeParam im st t1 t2 subst view
          = (st', some ns)) ∧
      (t1.constraints = [] → t1.bound = none →
        AbstractMatcher.matchTypeParamAgainstTypeParam im st t1 t2 subst view
          = (st, none)) ∧
      (∀ b1 st', t1.constraints = [] → t1.bound = some b1 →
        im st b1 b2 subst view = (st', none) →
        AbstractMatcher.matchTypeParamAgainstTypeParam im st t1 t2 subst view
          = (st', none)) ∧
      (t1.constraints ≠ [] →
       (t1.bound = none ∨
        ∃ b1 st', t1.bound = some b1 ∧ im st b1 b2 subst view = (st', none)) →
       ((∀ c ∈ t1.constraints, ∀ s, ((im s c b2 subst view).2).isSome = true) →
         (AbstractMatcher.matchTypeParamAgainstTypeParam im st t1 t2 subst
           view).2 = some subst) ∧
       ((∃ c ∈ t1.constraints, ∀ s, (im s c b2 subst view).2 = none) →
         (AbstractMatcher.matchTypeParamAgainstTypeParam im st t1 t2 subst
           view).2 = none))) := by
  constructor
  · intro hc
    unfold AbstractMatcher.matchTypeParamAgainstTypeParam
    rw [if_pos (by simpa using hc)]
    by_cases h1 : t1.constraints.isEmpty = true
    · rw [if_pos h1]
      simp [h1]
    · rw [if_neg h1]
      by_cases h2 :
          (t1.constraints.any fun c => !t2.constraints.contains c) = true
      · rw [if_pos h2]
        have : ¬ (t1.constraints.all fun c => t2.constraints.contains c)
            = true := by
          simp only [List.any_eq_true, Bool.not_eq_true'] at h2
          obtain ⟨c, hc', hcc⟩ := h2
          simp only [List.all_eq_true]
          intro hall
          rw [hall c hc'] at hcc
          simp at hcc
        rw [if_neg (by simpa [Bool.eq_false_iff.mpr h1] using this)]
      · rw [if_neg h2]
        have : (t1.constraints.all fun c => t2.constraints.contains c)
            = true := by
          simp only [List.any_eq_true, Bool.not_eq_true'] at h2
          simp only [List.all_eq_true]
          intro c hc'
          by_contra hcc
          exact h2 ⟨c, hc', by simpa using hcc⟩
        rw [if_pos (by simp [this, Bool.eq_false_iff.mpr h1])]
  · intro b2 hc hb
    have hcempty : t2.constraints.isEmpty = true := by simp [hc]
    refine ⟨?_, ?_, ?_, ?_⟩
    · intro b1 st' ns hb1 him
      unfold AbstractMatcher.matchTypeParamAgainstTypeParam
      rw [if_neg (by simp [hcempty])]
      simp only [hb, hb1, him]
    · intro h1c h1b
      unfold AbstractMatcher.matchTypeParamAgainstTypeParam
      rw [if_neg (by simp [hcempty])]
      simp only [hb, h1b]
      simp [h1c]
    · intro b1 st' h1c h1b him
      unfold AbstractMatcher.matchTypeParamAgainstTypeParam
      rw [if_neg (by simp [hcempty])]
      simp only [hb, h1b, him]
      simp [h1c]
    · intro h1c hfail
      have h1c' : t1.constraints.isEmpty = false := by
        cases hh : t1.constraints with
        | nil => exact absurd hh h1c
        | cons a l => rfl
      constructor
      · intro hall
        unfold AbstractMatcher.matchTypeParamAgainstTypeParam
        rw [if_neg (by simp [hcempty])]
        rcases hfail with h1b | ⟨b1, st', h1b, him⟩
        · simp only [hb, h1b]
          rw [if_neg (by simp [h1c'])]
          exact tpLoop_all_some im b2 subst view t1.constraints st hall
        · simp only [hb, h1b, him]
          rw [if_neg (by simp [h1c'])]
          exact tpLoop_all_some im b2 subst view t1.constraints st' hall
      · intro hex
        unfold AbstractMatcher.matchTypeParamAgainstTypeParam
        rw [if_neg (by simp [hcempty])]
        rcases hfail with h1b | ⟨b1, st', h1b, him⟩
        · simp only [hb, h1b]
          rw [if_neg (by simp [h1c'])]
          exact tpLoop_exists_none im b2 subst view t1.constraints st hex
        · simp only [hb, h1b, him]
          rw [if_neg (by simp [h1c'])]
          exact tpLoop_exists_none im b2 subst view t1.constraints st' hex

/-- C9 (witness): both parameters constrained to `NoReturn`; the subset check
passes and the match returns the substitution unchanged. -/
theorem c9_witness :
    AbstractMatcher.matchTypeParamAgainstTypeParam trivExt.instantiateAndMatch
      initState ⟨"T", "t.T", [Val.noReturn], none⟩
      ⟨"U", "t.U", [Val.noReturn], none⟩ [] [] = (initState, some []) := by
  have h := (c9_type_param_matching trivExt.instantiateAndMatch initState
    ⟨"T", "t.T", [Val.noReturn], none⟩ ⟨"U", "t.U", [Val.noReturn], none⟩
    [] [] (fun _ => rfl)).1 rfl
  rw [h]
  simp [List.contains, List.elem, Val.beq]

/-! ## Claim C10: matching the empty variable -/

theorem substContains_substSet_iff (s : Subst) (m : String) (v : PVar)
    (n : String) :
    substContains (substSet s m v) n = true ↔
      (n = m ∨ substContains s n = true) := by
  by_cases h : n = m
  · subst h
    simp [substContains, lookup_substSet_self]
  · rw [substContains, lookup_substSet_ne s v h]
    simp [substContains, h]

theorem nothingFillStep_lookup (s : Subst) (t : Val) {n : String}
    (h : substContains s n = true) :
    List.lookup n (AbstractMatcher.nothingFillStep s t) = List.lookup n s := by
  unfold AbstractMatcher.nothingFillStep
  split
  · rename_i hcond
    have hne : n ≠ t.fullName := by
      intro he
      have h2 := (Bool.and_eq_true _ _).mp hcond |>.2
      rw [← he, h] at h2
      simp at h2
    exact lookup_substSet_ne s _ hne
  · rfl

theorem nothingFillStep_contains (s : Subst) (t : Val) {n : String}
    (h : substContains s n = true) :
    substContains (AbstractMatcher.nothingFillStep s t) n = true := by
  rw [substContains, nothingFillStep_lookup s t h]
  exact h

theorem nothingFill_lookup (l : List Val) (s : Subst) {n : String}
    (h : substContains s n = true) :
    List.lookup n (l.foldl AbstractMatcher.nothingFillStep s)
      = List.lookup n s := by
  induction l generalizing s with
  | nil => rfl
  | cons u rest ih =>
    rw [List.foldl_cons, ih _ (nothingFillStep_contains s u h),
      nothingFillStep_lookup s u h]

theorem nothingFill_keepsEmpty (l : List Val) (s : Subst) {n : String}
    (h : List.lookup n s = some ((0 : Nat), ([] : List CfgB))) :
    List.lookup n (l.foldl AbstractMatcher.nothingFillStep s)
      = some ((0 : Nat), ([] : List CfgB)) := by
  induction l generalizing s with
  | nil => exact h
  | cons u rest ih =>
    rw [List.foldl_cons]
    refine ih _ ?_
    unfold AbstractMatcher.nothingFillStep
    split
    · by_cases he : n = u.fullName
      · subst he
        exact lookup_substSet_self s _ _
      · rw [lookup_substSet_ne s _ he]
        exact h
    · exact h

theorem nothingFillStep_pre (s : Subst) (u : Val) {n : String}
    (h : substContains s n = false ∨
      List.lookup n s = some ((0 : Nat), ([] : List CfgB))) :
    substContains (AbstractMatcher.nothingFillStep s u) n = false ∨
      List.lookup n (AbstractMatcher.nothingFillStep s u)
        = some ((0 : Nat), ([] : List CfgB)) := by
  unfold AbstractMatcher.nothingFillStep
  split
  · by_cases he : n = u.fullName
    · subst he
      exact Or.inr (lookup_substSet_self s _ _)
    · rcases h with h | h
      · exact Or.inl (by rw [substContains, lookup_substSet_ne s _ he]; exact h)
      · exact Or.inr (by rw [lookup_substSet_ne s _ he]; exact h)
  · exact h

theorem nothingFill_mem (l : List Val) (s : Subst) {t : Val}
    (ht : t ∈ l) (htp : t.isTypeParameter = true)
    (h : substContains s t.fullName = false ∨
      List.lookup t.fullName s = some ((0 : Nat), ([] : List CfgB))) :
    List.lookup t.fullName (l.foldl AbstractMatcher.nothingFillStep s)
      = some ((0 : Nat), ([] : List CfgB)) := by
  induction l generalizing s with
  | nil => simp at ht
  | cons u rest ih =>
    rw [List.foldl_cons]
    rcases List.mem_cons.mp ht with h1 | h2
    · subst h1
      rcases h with h | h
      · refine nothingFill_keepsEmpty rest _ ?_
        unfold AbstractMatcher.nothingFillStep
        rw [if_pos (by simp [htp, h])]
        exact lookup_substSet_self s _ _
      · refine nothingFill_keepsEmpty rest _ ?_
        unfold AbstractMatcher.nothingFillStep
        split
        · rename_i hcond
          have h2 := (Bool.and_eq_true _ _).mp hcond |>.2
          rw [substContains, h] at h2
          simp at h2
        · exact h
    · exact ih _ h2 (nothingFillStep_pre s u h)

theorem nothingFill_domain (l : List Val) (s : Subst) {n : String}
    (h : substContains (l.foldl AbstractMatcher.nothingFillStep s) n = true) :
    substContains s n = true ∨
      ∃ t, t ∈ l ∧ t.isTypeParameter = true ∧ t.fullName = n := by
  induction l generalizing s with
  | nil => exact Or.inl h
  | cons u rest ih =>
    rw [List.foldl_cons] at h
    rcases ih _ h with h1 | ⟨t, htl, htp, hn⟩
    · revert h1
      unfold AbstractMatcher.nothingFillStep
      split
      · rename_i hcond
        intro h1
        rcases (substContains_substSet_iff _ _ _ _).mp h1 with he | hc
        · exact Or.inr ⟨u, List.mem_cons_self u rest,
            ((Bool.and_eq_true _ _).mp hcond).1, he.symm⟩
        · exact Or.inl hc
      · intro h1
        exact Or.inl h1
    · exact Or.inr ⟨t, List.mem_cons_of_mem u htl, htp, hn⟩

/-- C10.  `match_var_against_type` on a variable with no bindings (the
"nothing" type): the match always succeeds without touching matcher state,
the returned substitution binds each `TypeParameter` among the formal type's
union options (after reducing a `TupleClass` to its element parameter) whose
full name was not already bound to a fresh empty variable, and no existing
entry is removed or replaced; every entry of the result is either an old
entry or one of these type-parameter fills. -/
theorem c10_nothing_matches (E : Ext) (recur : Recur) (st : MState)
    (var : PVar) (otherType : Val) (subst : Subst) (view : View)
    (hvar : var.2.isEmpty = true) :
    let reduced := if otherType.isTupleClass then
      otherType.getFormalTypeParameter paramT else otherType
    let opts := match reduced with
      | .union os => os
      | t => [t]
    ∃ s', AbstractMatcher.matchVarAgainstType E recur st var otherType subst
        view = (st, some s') ∧
      (∀ n, substContains subst n = true →
        List.lookup n s' = List.lookup n subst) ∧
      (∀ t, t ∈ opts → t.isTypeParameter = true →
        substContains subst t.fullName = false →
        List.lookup t.fullName s' = some ((0 : Nat), ([] : List CfgB))) ∧
      (∀ n, substContains s' n = true →
        substContains subst n = true ∨
          ∃ t, t ∈ opts ∧ t.isTypeParameter = true ∧ t.fullName = n) := by
  intro reduced opts
  refine ⟨opts.foldl AbstractMatcher.nothingFillStep subst, ?_, ?_, ?_, ?_⟩
  · unfold AbstractMatcher.matchVarAgainstType
    rw [if_neg (by simp [hvar])]
  · intro n hn
    exact nothingFill_lookup opts subst hn
  · intro t htl htp hc
    exact nothingFill_mem opts subst htl htp (Or.inl hc)
  · intro n hn
    exact nothingFill_domain opts subst hn

/-- C10 (witness): the empty variable matched against
`Union[T, NoReturn]` extends the substitution with `T` while keeping the
existing entry. -/
theorem c10_witness :
    ∃ s', AbstractMatcher.matchVarAgainstType trivExt trivRecur initState
        (5, []) (Val.union [Val.typeParameter "T" "m.T" [] none, Val.noReturn])
        [("x", (1, []))] [] = (initState, some s') ∧
      (∀ n, substContains [("x", (1, []))] n = true →
        List.lookup n s' = List.lookup n [("x", (1, []))]) ∧
      (∀ t, t ∈ [Val.typeParameter "T" "m.T" [] none, Val.noReturn] →
        t.isTypeParameter = true →
        substContains [("x", (1, []))] t.fullName = false →
        List.lookup t.fullName s' = some ((0 : Nat), ([] : List CfgB))) ∧
      (∀ n, substContains s' n = true →
        substContains [("x", (1, []))] n = true ∨
          ∃ t, t ∈ [Val.typeParameter "T" "m.T" [] none, Val.noReturn] ∧
            t.isTypeParameter = true ∧ t.fullName = n) :=
  c10_nothing_matches trivExt trivRecur initState (5, [])
    (Val.union [Val.typeParameter "T" "m.T" [] none, Val.noReturn])
    [("x", (1, []))] [] rfl

/-! ## Claim C6: the non-iterable-str guard -/

/-- C6.  Matching an instance whose class is `str`/`unicode` against one of
the four conflicting iterable types parameterized with a str-type `_T` fails,
recording `NonIterableStrError(left.cls, other_type)`; against an
unparameterized form of those types, or a parameterization whose element
type is not a str type, the guard accepts. -/
theorem c6_noniterable_str (E : Ext) (st : MState) (left : Val)
    (base : Val) (ps : List (String × Val)) (subst : Subst) (view : View)
    (hstr : ["builtins.str", "builtins.unicode"].contains left.clsV.fullName
      = true)
    (hiter : ["typing.Iterable", "typing.Sequence", "typing.Collection",
      "typing.Container"].contains base.fullName = true)
    (helem : ["builtins.str", "builtins.unicode"].contains
      ((Val.paramClass base ps).getFormalTypeParameter paramT).fullName
      = true) :
    AbstractMatcher.matchInstanceAgainstType E st left (.paramClass base ps)
        subst view
      = ({ st with
            noniterableStrError := some (left.clsV, .paramClass base ps) },
         none) ∧
    (∀ other2 : Val,
      other2.isParameterizedClass = false →
      AbstractMatcher.satisfiesNoniterableStr left.clsV other2 = true) ∧
    (∀ other3 : Val,
      ["builtins.str", "builtins.unicode"].contains
        ((other3.getFormalTypeParameter paramT).fullName) = false →
      AbstractMatcher.satisfiesNoniterableStr left.clsV other3 = true) := by
  refine ⟨?_, ?_, ?_⟩
  · have hguard : AbstractMatcher.satisfiesNoniterableStr left.clsV
        (.paramClass base ps) = false := by
      unfold AbstractMatcher.satisfiesNoniterableStr
      rw [show (Val.paramClass base ps).fullName = base.fullName from rfl]
      simp only [hiter, hstr, helem, Val.isParameterizedClass]
      simp
    unfold AbstractMatcher.matchInstanceAgainstType
    rw [if_neg (fun h => nomatch h), if_neg (fun h => nomatch h),
      if_pos (show Val.isClass (.paramClass base ps) = true from rfl),
      if_pos (show (!AbstractMatcher.satisfiesNoniterableStr left.clsV
        (.paramClass base ps)) = true by rw [hguard]; rfl)]
  · intro other2 hpc
    unfold AbstractMatcher.satisfiesNoniterableStr
    by_cases h : (!(["typing.Iterable", "typing.Sequence", "typing.Collection",
        "typing.Container"].contains other2.fullName) ||
        !(["builtins.str", "builtins.unicode"].contains left.clsV.fullName))
        = true
    · rw [if_pos h]
    · rw [if_neg h, if_neg (by simp [hpc])]
  · intro other3 h3
    unfold AbstractMatcher.satisfiesNoniterableStr
    by_cases h : (!(["typing.Iterable", "typing.Sequence", "typing.Collection",
        "typing.Container"].contains other3.fullName) ||
        !(["builtins.str", "builtins.unicode"].contains left.clsV.fullName))
        = true
    · rw [if_pos h]
    · rw [if_neg h]
      by_cases hp : other3.isParameterizedClass = true
      · rw [if_pos hp, h3]; rfl
      · rw [if_neg hp]

/-- C6 (witness): a `str` instance against `Iterable[str]` fails with the
non-iterable-str error; against bare `Iterable` or `Iterable[int]` the guard
accepts. -/
theorem c6_witness :
    AbstractMatcher.matchInstanceAgainstType trivExt initState
        (Val.instanceV
          (Val.simpleClass "builtins.str" false [] false false false [] [])
          "s" [] [])
        (.paramClass
          (Val.simpleClass "typing.Iterable" false [] false false false [] [])
          [("_T",
            Val.simpleClass "builtins.str" false [] false false false [] [])])
        [] []
      = ({ initState with
            noniterableStrError := some
              (Val.simpleClass "builtins.str" false [] false false false [] [],
               .paramClass
                 (Val.simpleClass "typing.Iterable" false [] false false false
                   [] [])
                 [("_T",
                   Val.simpleClass "builtins.str" false [] false false false []
                     [])]) },
         none) ∧
    AbstractMatcher.satisfiesNoniterableStr
      (Val.simpleClass "builtins.str" false [] false false false [] [])
      (Val.simpleClass "typing.Iterable" false [] false false false [] [])
      = true := by
  have h := c6_noniterable_str trivExt initState
    (Val.instanceV
      (Val.simpleClass "builtins.str" false [] false false false [] [])
      "s" [] [])
    (Val.simpleClass "typing.Iterable" false [] false false false [] [])
    [("_T", Val.simpleClass "builtins.str" false [] false false false [] [])]
    [] [] (by decide) (by decide) (by decide)
  exact ⟨h.1, h.2.1
    (Val.simpleClass "typing.Iterable" false [] false false false [] []) rfl⟩

/-! ## Claim C7: typed-dict matching -/

/-- C7 (counterexample).  A non-dict instance matched against an empty
typed-dict class: the missing, extra and bad collections are all empty, yet
the match fails — and no `TypedDictError` is recorded — refuting "succeeds
iff all three are empty". -/
theorem c7_counterexample :
    AbstractMatcher.matchDictAgainstTypedDict trivExt initState
        (Val.instanceV (Val.simpleClass "C" false [] false false false [] [])
          "inst" [] [])
        (Val.typedDictClass "TD" [] [])
      = (initState, false) ∧
    AbstractMatcher.checkKeys [] [] [] = ([], []) ∧
    AbstractMatcher.matchInstanceAgainstType trivExt initState
        (Val.instanceV (Val.simpleClass "C" false [] false false false [] [])
          "inst" [] [])
        (Val.typedDictClass "TD" [] []) [] []
      = (initState, none) ∧
    (AbstractMatcher.matchDictAgainstTypedDict trivExt initState
        (Val.instanceV (Val.simpleClass "C" false [] false false false [] [])
          "inst" [] [])
        (Val.typedDictClass "TD" [] [])).1.typedDictError = none :=
  ⟨rfl, rfl, rfl, rfl⟩

/-- C7 (amended).  Matching a *dict* instance against a typed-dict class
succeeds iff the missing required keys, the extra undeclared keys, and the
per-key bad matches are all empty; when any is non-empty the match fails and
`TypedDictError(bad, extra, missing)` is recorded.  A non-dict instance
always fails, with the typed-dict error slot cleared (no error recorded).
Success and failure propagate through `_match_instance_against_type`. -/
theorem c7_amended (E : Ext) (st : MState) (fullName : String)
    (fields : List (String × Val)) (required : List String)
    (cls : Val) (members : List String)
    (pyval : List (String × List CfgB)) (subst : Subst) (view : View) :
    let td := Val.typedDictClass fullName fields required
    let dictLeft := Val.dictV cls members pyval
    let st0 : MState := { st with typedDictError := none }
    let mex := AbstractMatcher.checkKeys required (fields.map (·.1))
      (pyval.map (·.1))
    let r := AbstractMatcher.tdBadLoop E fields st0 pyval []
    ((AbstractMatcher.matchDictAgainstTypedDict E st dictLeft td).2 = true ↔
      (mex.1 = [] ∧ mex.2 = [] ∧ r.2 = [])) ∧
    (¬(mex.1 = [] ∧ mex.2 = [] ∧ r.2 = []) →
      AbstractMatcher.matchDictAgainstTypedDict E st dictLeft td =
        ({ r.1 with typedDictError := some ⟨r.2, mex.2, mex.1⟩ }, false)) ∧
    ((mex.1 = [] ∧ mex.2 = [] ∧ r.2 = []) →
      AbstractMatcher.matchDictAgainstTypedDict E st dictLeft td
        = (r.1, true)) ∧
    (∀ left : Val, left.isDict = false →
      AbstractMatcher.matchDictAgainstTypedDict E st left td = (st0, false)) ∧
    (∀ (left : Val) (s' : MState),
      AbstractMatcher.matchDictAgainstTypedDict E st left td = (s', false) →
      AbstractMatcher.matchInstanceAgainstType E st left td subst view
        = (s', none)) ∧
    (∀ (left : Val) (s' : MState),
      AbstractMatcher.matchDictAgainstTypedDict E st left td = (s', true) →
      AbstractMatcher.matchInstanceAgainstType E st left td subst view
        = (s', some subst)) := by
  intro td dictLeft st0 mex r
  have key : AbstractMatcher.matchDictAgainstTypedDict E st dictLeft td =
      (if (!mex.1.isEmpty || !mex.2.isEmpty || !r.2.isEmpty) = true
       then ({ r.1 with typedDictError := some ⟨r.2, mex.2, mex.1⟩ }, false)
       else (r.1, true)) := rfl
  have hcond : ((!mex.1.isEmpty || !mex.2.isEmpty || !r.2.isEmpty) = false) ↔
      (mex.1 = [] ∧ mex.2 = [] ∧ r.2 = []) := by
    simp [List.isEmpty_iff, and_assoc]
  refine ⟨?_, ?_, ?_, ?_, ?_, ?_⟩
  · rw [key]
    by_cases hc : (!mex.1.isEmpty || !mex.2.isEmpty || !r.2.isEmpty) = true
    · rw [if_pos hc]
      constructor
      · intro hfalse; exact nomatch hfalse
      · intro hall
        have hcf := hcond.mpr hall
        rw [hcf] at hc
        exact nomatch hc
    · have hcf : (!mex.1.isEmpty || !mex.2.isEmpty || !r.2.isEmpty)
          = false := by
        cases hcc : (!mex.1.isEmpty || !mex.2.isEmpty || !r.2.isEmpty) with
        | true => exact absurd hcc hc
        | false => rfl
      rw [if_neg hc]
      constructor
      · intro _; exact hcond.mp hcf
      · intro _; rfl
  · intro h
    have hct : (!mex.1.isEmpty || !mex.2.isEmpty || !r.2.isEmpty) = true := by
      cases hcc : (!mex.1.isEmpty || !mex.2.isEmpty || !r.2.isEmpty) with
      | true => rfl
      | false => exact absurd (hcond.mp hcc) h
    rw [key, if_pos hct]
  · intro h
    have hcf := hcond.mpr h
    rw [key, if_neg (by rw [hcf]; simp)]
  · intro left hleft
    show AbstractMatcher.matchDictAgainstTypedDict E st left td = (st0, false)
    unfold AbstractMatcher.matchDictAgainstTypedDict
    cases left <;> first
      | rfl
      | (exact absurd hleft (by simp [Val.isDict]))
  · intro left s' h
    unfold AbstractMatcher.matchInstanceAgainstType
    rw [if_neg (fun hh => nomatch hh),
      if_pos (show Val.isTypedDictClass td = true from rfl), h]
  · intro left s' h
    unfold AbstractMatcher.matchInstanceAgainstType
    rw [if_neg (fun hh => nomatch hh),
      if_pos (show Val.isTypedDictClass td = true from rfl), h]

/-- C7 (witness): a dict `{a: NoReturn-value}` against
`TypedDict{a: NoReturn, required {a}}` has no missing, extra or bad entries
and matches. -/
theorem c7_witness :
    AbstractMatcher.matchDictAgainstTypedDict trivExt initState
        (Val.dictV (Val.simpleClass "dict" false [] false false false [] []) []
          [("a", [(0, Val.noReturn)])])
        (Val.typedDictClass "TD" [("a", Val.noReturn)] ["a"])
      = ({ initState with typedDictError := none }, true) := by
  have h := (c7_amended trivExt initState "TD" [("a", Val.noReturn)] ["a"]
    (Val.simpleClass "dict" false [] false false false [] []) []
    [("a", [(0, Val.noReturn)])] [] []).2.2.1 ⟨by decide, by decide, rfl⟩
  exact h

/-! ## Claim C8: protocol missing-attributes error -/

/-- C8.  When an instance whose class is neither ambiguous nor dynamic is
matched against a protocol and some required attribute is absent from the
instance's attribute set (`_get_attribute_names`: members plus own
attributes along the MRO with `__iter__` synthesis), the match fails and
`ProtocolMissingAttributesError(left.cls, protocol, missing)` is recorded,
where `missing` is exactly the set of protocol attributes not implemented;
the missing set is non-empty iff at least one protocol attribute is
absent. -/
theorem c8_protocol_missing (E : Ext) (st : MState) (left otherType : Val)
    (subst : Subst) (view : View)
    (h1 : left.clsV.isAmbiguousOrEmpty = false)
    (h2 : left.clsV.isDynamic = false)
    (h3 : otherType.protocolAttributes.filter
      (fun a => !((AbstractMatcher.getAttributeNames left).contains a))
      ≠ []) :
    AbstractMatcher.matchAgainstProtocol E st left otherType subst view =
      ({ st with
          protocolError := some (.missingAttrs left.clsV otherType
            (otherType.protocolAttributes.filter
              (fun a =>
                !((AbstractMatcher.getAttributeNames left).contains a)))) },
       none) ∧
    (otherType.protocolAttributes.filter
        (fun a => !((AbstractMatcher.getAttributeNames left).contains a))
        ≠ [] ↔
      ∃ a ∈ otherType.protocolAttributes,
        (AbstractMatcher.getAttributeNames left).contains a = false) := by
  constructor
  · have hme : (otherType.protocolAttributes.filter
        (fun a => !((AbstractMatcher.getAttributeNames left).contains a))
        ).isEmpty = false := by
      cases hmm : (otherType.protocolAttributes.filter
        (fun a => !((AbstractMatcher.getAttributeNames left).contains a))
        ).isEmpty with
      | false => rfl
      | true => exact absurd (List.isEmpty_iff.mp hmm) h3
    unfold AbstractMatcher.matchAgainstProtocol
    rw [if_neg (by rw [h1]; simp), if_neg (by rw [h2]; simp),
      if_pos (by rw [hme]; rfl)]
  · constructor
    · intro h
      obtain ⟨a, ha⟩ := List.exists_mem_of_ne_nil _ h
      have := List.mem_filter.mp ha
      exact ⟨a, this.1, by simpa using this.2⟩
    · rintro ⟨a, ha, hc⟩ hnil
      have : a ∈ otherType.protocolAttributes.filter
          (fun a => !((AbstractMatcher.getAttributeNames left).contains a)) :=
        List.mem_filter.mpr ⟨ha, by simpa using hc⟩
      rw [hnil] at this
      simp at this

/-- C8 (witness): an instance implementing only `foo` against a protocol
requiring `foo` and `bar` fails with missing set `{bar}`. -/
theorem c8_witness :
    AbstractMatcher.matchAgainstProtocol trivExt initState
        (Val.instanceV (Val.simpleClass "m.C" false [] false false false [] [])
          "o" ["foo"] [])
        (Val.simpleClass "m.P" true ["foo", "bar"] true false false [] [])
        [] []
      = ({ initState with
            protocolError := some (.missingAttrs
              (Val.simpleClass "m.C" false [] false false false [] [])
              (Val.simpleClass "m.P" true ["foo", "bar"] true false false []
                [])
              ["bar"]) },
         none) :=
  (c8_protocol_missing trivExt initState
    (Val.instanceV (Val.simpleClass "m.C" false [] false false false [] [])
      "o" ["foo"] [])
    (Val.simpleClass "m.P" true ["foo", "bar"] true false false [] [])
    [] [] rfl rfl (by decide)).1

/-! ## Claim C4: the single-TypeVar short-circuit -/

/-- C4 (counterexample).  The left side of the pair is a *bounded* type
variable — not a bare one — yet the special param matcher still
short-circuits (the code checks only that the left is a `TypeParameter`,
bounds and constraints unchecked), instead of attempting normal matching as
the claim requires when the "both sides bare" condition fails. -/
theorem c4_counterexample :
    (Val.typeParameter "S" "m.S" []
      (some (Val.simpleClass "builtins.int" false [] false false false [] []))
      ).tpBound ≠ none ∧
    AbstractMatcher.getParamMatcher
        (Val.callableClass
          (Val.simpleClass "typing.Callable" false [] false false false [] [])
          [] Val.unsolvable (Val.typeParameter "T2" "m.T2" [] none))
        (Val.typeParameter "S" "m.S" []
          (some (Val.simpleClass "builtins.int" false [] false false false []
            [])))
        (Val.typeParameter "T2" "m.T2" [] none) []
      = some [("m.T2", (0, [(0, Val.empty)]))] := by
  constructor
  · simp [Val.tpBound]
  · simp only [AbstractMatcher.getParamMatcher]
    simp [getTypeParameters, getTypeParametersL, AbstractMatcher.countOcc,
      List.countP, List.countP.go, Val.beq, Val.beqL, Val.beqO,
      Val.isTypeParameter, Val.tpConstraints, Val.tpBound,
      Val.isCallableClass, Val.getFormalTypeParameter, substSet, paramARGS,
      Val.fullName]

theorem bool_of_not_not {b : Bool} (h : ¬((!b) = true)) : b = true := by
  cases b with
  | true => rfl
  | false => exact absurd rfl h

theorem bne_eq_of_not {α : Type} [BEq α] [LawfulBEq α] {x y : α}
    (h : ¬((x != y) = true)) : x = y := by
  cases hxy : (x != y) with
  | false => simpa using hxy
  | true => exact absurd hxy h

/-- C4 (amended).  The special param matcher short-circuits exactly when the
*right* side is a bare (unconstrained, unbounded) type parameter that occurs
exactly once across the callable (subtracting the `ARGS` double-count of a
`CallableClass`) and the *left* side is any type parameter (its bounds and
constraints are not checked); on success the right's full name is bound to
an empty-value placeholder.  In `_match_signature_against_callable` and in
the `_match_callable_instance` argument loop, the special matcher is tried
first and normal matching (via `_instantiate_and_match`, with arguments
flipped for contravariance) is attempted only when it declines. -/
theorem c4_amended (callableType left right : Val) (subst : Subst) :
    ((AbstractMatcher.getParamMatcher callableType left right subst).isSome
        = true ↔
      (left.isTypeParameter = true ∧ right.isTypeParameter = true ∧
       right.tpConstraints = [] ∧ right.tpBound = none ∧
       AbstractMatcher.countOcc (getTypeParameters callableType) right -
         AbstractMatcher.countOcc
           (if callableType.isCallableClass = true then
             getTypeParameters (callableType.getFormalTypeParameter paramARGS)
            else []) right = 1)) ∧
    (∀ s', AbstractMatcher.getParamMatcher callableType left right subst
        = some s' →
      s' = substSet subst right.fullName (0, [(0, .empty)])) ∧
    (∀ (E : Ext) (st : MState) (sig : AbstractMatcher.PySig) (view : View)
        (ns : Subst),
      AbstractMatcher.getParamMatcher callableType
          ((List.lookup "return" sig.annots).getD .unsolvable)
          (callableType.getFormalTypeParameter paramRET) subst = some ns →
      callableType.isCallableClass = false →
      AbstractMatcher.matchSignatureAgainstCallable E st sig callableType
        subst view = (st, some ns)) ∧
    (∀ (E : Ext) (st : MState) (sig : AbstractMatcher.PySig) (view : View)
        (st' : MState),
      AbstractMatcher.getParamMatcher callableType
          ((List.lookup "return" sig.annots).getD .unsolvable)
          (callableType.getFormalTypeParameter paramRET) subst = none →
      E.instantiateAndMatch st
          ((List.lookup "return" sig.annots).getD .unsolvable)
          (callableType.getFormalTypeParameter paramRET) subst view
        = (st', none) →
      AbstractMatcher.matchSignatureAgainstCallable E st sig callableType
        subst view = (st', none)) ∧
    (∀ (E : Ext) (pm : Val → Val → Subst → Option Subst) (view : View)
        (st : MState) (la ra : Val) (rest : List (Val × Val)) (ns : Subst),
      pm la ra subst = some ns →
      AbstractMatcher.callableArgsLoop E pm view st ((la, ra) :: rest) subst
        = AbstractMatcher.callableArgsLoop E pm view st rest ns) ∧
    (∀ (E : Ext) (pm : Val → Val → Subst → Option Subst) (view : View)
        (st st' : MState) (la ra : Val) (rest : List (Val × Val)),
      pm la ra subst = none →
      E.instantiateAndMatch st ra la subst view = (st', none) →
      AbstractMatcher.callableArgsLoop E pm view st ((la, ra) :: rest) subst
        = (st', none)) := by
  have key : AbstractMatcher.getParamMatcher callableType left right subst =
      (if (!left.isTypeParameter || !right.isTypeParameter ||
           !right.tpConstraints.isEmpty || !right.tpBound.isNone ||
           (AbstractMatcher.countOcc (getTypeParameters callableType) right -
             AbstractMatcher.countOcc
               (if callableType.isCallableClass then
                 getTypeParameters
                   (callableType.getFormalTypeParameter paramARGS)
                else []) right != 1)) = true
       then none
       else some (substSet subst right.fullName (0, [(0, .empty)]))) := rfl
  refine ⟨?_, ?_, ?_, ?_, ?_, ?_⟩
  · rw [key]
    by_cases hc : (!left.isTypeParameter || !right.isTypeParameter ||
        !right.tpConstraints.isEmpty || !right.tpBound.isNone ||
        (AbstractMatcher.countOcc (getTypeParameters callableType) right -
          AbstractMatcher.countOcc
            (if callableType.isCallableClass then
              getTypeParameters (callableType.getFormalTypeParameter paramARGS)
             else []) right != 1)) = true
    · rw [if_pos hc]
      simp only [Option.isSome_none]
      constructor
      · intro hfalse; exact nomatch hfalse
      · intro hall
        obtain ⟨h1, h2, h3, h4, h5⟩ := hall
        simp [h1, h2, h3, h4, h5] at hc
    · rw [if_neg hc]
      simp only [Option.isSome_some, true_iff]
      simp only [Bool.or_eq_true] at hc
      push_neg at hc
      refine ⟨bool_of_not_not hc.1.1.1.1, bool_of_not_not hc.1.1.1.2,
        List.isEmpty_iff.mp (bool_of_not_not hc.1.1.2),
        Option.isNone_iff_eq_none.mp (bool_of_not_not hc.1.2),
        bne_eq_of_not hc.2⟩
  · intro s' hs
    rw [key] at hs
    by_cases hc : (!left.isTypeParameter || !right.isTypeParameter ||
        !right.tpConstraints.isEmpty || !right.tpBound.isNone ||
        (AbstractMatcher.countOcc (getTypeParameters callableType) right -
          AbstractMatcher.countOcc
            (if callableType.isCallableClass then
              getTypeParameters (callableType.getFormalTypeParameter paramARGS)
             else []) right != 1)) = true
    · rw [if_pos hc] at hs; exact nomatch hs
    · rw [if_neg hc] at hs
      exact (Option.some.injEq _ _ ▸ hs).symm ▸ rfl
  · intro E st sig view ns hpm hncc
    unfold AbstractMatcher.matchSignatureAgainstCallable
    simp only [hpm, hncc]
    rfl
  · intro E st sig view st' hpm hext
    unfold AbstractMatcher.matchSignatureAgainstCallable
    simp only [hpm, hext]
  · intro E pm view st la ra rest ns hpm
    simp only [AbstractMatcher.callableArgsLoop, hpm]
  · intro E pm view st st' la ra rest hpm hext
    simp only [AbstractMatcher.callableArgsLoop, hpm, hext]

/-- C4 (witness): the amended characterization applied to the
counterexample's callable, with a bare left type variable. -/
theorem c4_witness :
    (AbstractMatcher.getParamMatcher
        (Val.callableClass
          (Val.simpleClass "typing.Callable" false [] false false false [] [])
          [] Val.unsolvable (Val.typeParameter "T2" "m.T2" [] none))
        (Val.typeParameter "S" "m.S" [] none)
        (Val.typeParameter "T2" "m.T2" [] none) []).isSome = true := by
  apply (c4_amended
    (Val.callableClass
      (Val.simpleClass "typing.Callable" false [] false false false [] [])
      [] Val.unsolvable (Val.typeParameter "T2" "m.T2" [] none))
    (Val.typeParameter "S" "m.S" [] none)
    (Val.typeParameter "T2" "m.T2" [] none) []).1.mpr
  refine ⟨rfl, rfl, rfl, rfl, ?_⟩
  simp [getTypeParameters, getTypeParametersL, AbstractMatcher.countOcc,
    List.countP, List.countP.go, Val.beq, Val.beqL, Val.beqO,
    Val.isCallableClass, Val.getFormalTypeParameter]

/-! ## Claim C5: NoReturn matching -/

/-- C5 (counterexample).  A `NoReturn` value matched against the ambiguous
formal type `Unknown` *fails* (the code admits only `Unsolvable`, not
`Unknown`), refuting the claim that the match succeeds whenever the other
side is ambiguous (Unknown or Unsolvable). -/
theorem c5_counterexample :
    AbstractMatcher.matchValueAgainstTypeStep trivExt trivRecur initState
        ⟨(0, Val.noReturn), [(0, Val.noReturn)]⟩ Val.unknown [] []
      = (initState, none) := by
  simp [AbstractMatcher.matchValueAgainstTypeStep, AbstractMatcher.unwrapFinal,
    Val.formal, Val.beq, trivExt, Val.isCallableTPI, Val.isTypeParameter,
    Val.isNoReturn, Val.isClass, Val.isUnsolvable, Val.isAmbiguous,
    Val.isEmptyVal]

/-- C5 (amended).  For every match reaching the NoReturn case (neither side
`Final`-wrapped, the formal type not a recursive annotation, the value not
formal, the value not a type-parameter instance attached to a
callable/signature, the formal type not a type parameter) where `NoReturn`
appears as the value or as the formal type: the match succeeds, returning
the substitution unchanged and leaving the state untouched, iff both sides
are `NoReturn` or either side is `Unsolvable`; in every other case —
including `Unknown` on the other side — it fails. -/
theorem c5_amended (E : Ext) (recur : Recur) (st : MState) (bid : Nat)
    (dval : Val) (sibs : List CfgB) (otherType : Val) (subst : Subst)
    (view : View)
    (hun : AbstractMatcher.unwrapFinal otherType = otherType)
    (hform : (AbstractMatcher.unwrapFinal dval).formal = false)
    (htpi : (AbstractMatcher.unwrapFinal dval).isCallableTPI = false)
    (hrec : E.isRecursiveAnnot otherType = false)
    (htp : otherType.isTypeParameter = false)
    (hnr : AbstractMatcher.unwrapFinal dval = .noReturn ∨
      otherType = .noReturn) :
    AbstractMatcher.matchValueAgainstTypeStep E recur st ⟨(bid, dval), sibs⟩
        otherType subst view =
      (st,
       if (((AbstractMatcher.unwrapFinal dval).isNoReturn &&
             otherType.isNoReturn) ||
           otherType.isUnsolvable ||
           (AbstractMatcher.unwrapFinal dval).isUnsolvable) = true
       then some subst else none) := by
  unfold AbstractMatcher.matchValueAgainstTypeStep
  dsimp only
  rw [hun, hrec]
  simp only [Bool.false_and, Bool.false_eq_true, if_false, hform, htpi, htp]
  have hguard : (otherType.isNoReturn ||
      (AbstractMatcher.unwrapFinal dval).isNoReturn) = true := by
    rcases hnr with h | h
    · rw [h]; simp [Val.isNoReturn]
    · rw [h]; simp [Val.isNoReturn]
  rw [if_pos hguard]
  have hcond : ((AbstractMatcher.unwrapFinal dval == otherType) ||
      otherType.isUnsolvable ||
      (AbstractMatcher.unwrapFinal dval).isUnsolvable) =
      (((AbstractMatcher.unwrapFinal dval).isNoReturn &&
        otherType.isNoReturn) ||
       otherType.isUnsolvable ||
       (AbstractMatcher.unwrapFinal dval).isUnsolvable) := by
    rcases hnr with h | h
    · rw [h]
      cases otherType <;> simp [Val.beq, Val.isNoReturn, Val.isUnsolvable]
    · rw [h]
      generalize AbstractMatcher.unwrapFinal dval = u
      cases u <;> simp [Val.beq, Val.isNoReturn, Val.isUnsolvable]
  rw [hcond]

/-- C5 (witness): `NoReturn` against `Unsolvable` (`Any`) succeeds with the
substitution unchanged. -/
theorem c5_witness :
    AbstractMatcher.matchValueAgainstTypeStep trivExt trivRecur initState
        ⟨(0, Val.noReturn), [(0, Val.noReturn)]⟩ Val.unsolvable
        [("x", (1, []))] []
      = (initState, some [("x", (1, []))]) := by
  rw [c5_amended trivExt trivRecur initState 0 Val.noReturn
    [(0, Val.noReturn)] Val.unsolvable [("x", (1, []))] [] rfl
    (by simp [AbstractMatcher.unwrapFinal, Val.formal]) rfl rfl rfl
    (Or.inl rfl)]
  simp [AbstractMatcher.unwrapFinal, Val.isNoReturn, Val.isUnsolvable]

/-! ## Claim C3: union matching -/

theorem pyEnum_mem_ge (opts : List Val) (i : Nat) :
    ∀ p ∈ AbstractMatcher.pyEnum i opts, i ≤ p.1 := by
  induction opts generalizing i with
  | nil => intro p hp; simp [AbstractMatcher.pyEnum] at hp
  | cons v rest ih =>
    intro p hp
    rw [AbstractMatcher.pyEnum] at hp
    rcases List.mem_cons.mp hp with h | h
    · subst h; exact Nat.le_refl i
    · exact Nat.le_of_succ_le (ih (i + 1) p h)

theorem unionSortInsert_append (x : Nat × Val) (l1 l2 : List (Nat × Val))
    (h1 : ∀ y ∈ l1, AbstractMatcher.unionKeyLt x y = false)
    (h2 : ∀ y ∈ l2, AbstractMatcher.unionKeyLt x y = true) :
    AbstractMatcher.unionSortInsert x (l1 ++ l2) = l1 ++ x :: l2 := by
  induction l1 with
  | nil =>
    cases l2 with
    | nil => rfl
    | cons y ys =>
      simp only [List.nil_append, AbstractMatcher.unionSortInsert]
      rw [if_pos (h2 y (List.mem_cons_self y ys))]
  | cons y l1' ih =>
    simp only [List.cons_append, AbstractMatcher.unionSortInsert]
    rw [if_neg (by rw [h1 y (List.mem_cons_self y l1')]; simp)]
    show y :: AbstractMatcher.unionSortInsert x (l1' ++ l2) = _
    rw [ih (fun z hz => h1 z (List.mem_cons_of_mem y hz))]

theorem unionSorted_split (opts : List Val) (i : Nat) :
    AbstractMatcher.unionSorted (AbstractMatcher.pyEnum i opts) =
      (AbstractMatcher.pyEnum i opts).filter (fun p => !p.2.formal) ++
      (AbstractMatcher.pyEnum i opts).filter (fun p => p.2.formal) := by
  induction opts generalizing i with
  | nil => rfl
  | cons v rest ih =>
    rw [AbstractMatcher.pyEnum]
    simp only [AbstractMatcher.unionSorted]
    rw [ih (i + 1)]
    by_cases hf : v.formal = true
    · rw [unionSortInsert_append (i, v) _ _
        (by
          intro y hy
          have hm := List.mem_filter.mp hy
          have hyf : y.2.formal = false := by
            have := hm.2
            simpa using this
          simp [AbstractMatcher.unionKeyLt, hf, hyf])
        (by
          intro y hy
          have hm := List.mem_filter.mp hy
          have hyf : y.2.formal = true := by simpa using hm.2
          have hgt : i < y.1 :=
            Nat.lt_of_succ_le (pyEnum_mem_ge rest (i + 1) y hm.1)
          simp [AbstractMatcher.unionKeyLt, hf, hyf, hgt])]
      rw [List.filter_cons, List.filter_cons]
      simp [hf]
    · have hf' : v.formal = false := by
        cases hv : v.formal with
        | true => exact absurd hv hf
        | false => rfl
      rw [show (AbstractMatcher.pyEnum (i + 1) rest).filter
            (fun p => !p.2.formal) ++
          (AbstractMatcher.pyEnum (i + 1) rest).filter (fun p => p.2.formal)
          = [] ++ ((AbstractMatcher.pyEnum (i + 1) rest).filter
            (fun p => !p.2.formal) ++
          (AbstractMatcher.pyEnum (i + 1) rest).filter (fun p => p.2.formal))
          from by rw [List.nil_append]]
      rw [unionSortInsert_append (i, v) [] _
        (by intro y hy; simp at hy)
        (by
          intro y hy
          rcases List.mem_append.mp hy with h | h
          · have hm := List.mem_filter.mp h
            have hyf : y.2.formal = false := by simpa using hm.2
            have hgt : i < y.1 :=
              Nat.lt_of_succ_le (pyEnum_mem_ge rest (i + 1) y hm.1)
            simp [AbstractMatcher.unionKeyLt, hf', hyf, hgt]
          · have hm := List.mem_filter.mp h
            have hyf : y.2.formal = true := by simpa using hm.2
            simp [AbstractMatcher.unionKeyLt, hf', hyf])]
      rw [List.filter_cons, List.filter_cons]
      simp [hf']

theorem pyEnum_filter_map (p : Val → Bool) (opts : List Val) (i : Nat) :
    ((AbstractMatcher.pyEnum i opts).filter (fun q => p q.2)).map (·.2)
      = opts.filter p := by
  induction opts generalizing i with
  | nil => rfl
  | cons v rest ih =>
    rw [AbstractMatcher.pyEnum, List.filter_cons, List.filter_cons]
    by_cases hp : p v = true
    · rw [if_pos (show p (i, v).2 = true from hp), if_pos hp, List.map_cons,
        ih (i + 1)]
    · rw [if_neg (show ¬(p (i, v).2 = true) from hp), if_neg hp, ih (i + 1)]

/-- The realized traversal order of the union options: non-formal options
first, otherwise in original order. -/
theorem unionTraversal_eq (opts : List Val) :
    (AbstractMatcher.unionSorted (AbstractMatcher.pyEnum 0 opts)).map (·.2)
      = opts.filter (fun t => !t.formal) ++ opts.filter (fun t => t.formal)
      := by
  rw [unionSorted_split opts 0, List.map_append,
    pyEnum_filter_map (fun t => !t.formal) opts 0,
    pyEnum_filter_map (fun t => t.formal) opts 0]

theorem unionTraversal_mem (opts : List Val) (t : Val) :
    t ∈ (AbstractMatcher.unionSorted (AbstractMatcher.pyEnum 0 opts)).map
      (·.2) ↔ t ∈ opts := by
  rw [unionTraversal_eq]
  constructor
  · intro h
    rcases List.mem_append.mp h with h | h
    · exact (List.mem_filter.mp h).1
    · exact (List.mem_filter.mp h).1
  · intro h
    by_cases hf : t.formal = true
    · exact List.mem_append.mpr (Or.inr (List.mem_filter.mpr ⟨h, by simp [hf]⟩))
    · exact List.mem_append.mpr (Or.inl (List.mem_filter.mpr ⟨h,
        by simp [hf]⟩))

theorem substFillStep_lookup (s : Subst) (p : Val) {n : String}
    (h : substContains s n = true) :
    List.lookup n (AbstractMatcher.substFillStep s p) = List.lookup n s := by
  unfold AbstractMatcher.substFillStep
  split
  · rename_i hcond
    have hne : n ≠ p.shortName := by
      intro he
      rw [← he, h] at hcond
      simp at hcond
    exact lookup_substSet_ne s _ hne
  · rfl

theorem substFill_lookup (l : List Val) (s : Subst) {n : String}
    (h : substContains s n = true) :
    List.lookup n (l.foldl AbstractMatcher.substFillStep s)
      = List.lookup n s := by
  induction l generalizing s with
  | nil => rfl
  | cons u rest ih =>
    rw [List.foldl_cons]
    have hc : substContains (AbstractMatcher.substFillStep s u) n = true := by
      rw [substContains, substFillStep_lookup s u h]
      exact h
    rw [ih _ hc, substFillStep_lookup s u h]

theorem substFill_keepsVal (l : List Val) (s : Subst) {n : String}
    (h : List.lookup n s = some ((0 : Nat), [((0 : Nat), Val.empty)])) :
    List.lookup n (l.foldl AbstractMatcher.substFillStep s)
      = some ((0 : Nat), [((0 : Nat), Val.empty)]) := by
  induction l generalizing s with
  | nil => exact h
  | cons u rest ih =>
    rw [List.foldl_cons]
    refine ih _ ?_
    unfold AbstractMatcher.substFillStep
    split
    · by_cases he : n = u.shortName
      · subst he
        exact lookup_substSet_self s _ _
      · rw [lookup_substSet_ne s _ he]
        exact h
    · exact h

theorem substFillStep_pre (s : Subst) (u : Val) {n : String}
    (h : substContains s n = false ∨
      List.lookup n s = some ((0 : Nat), [((0 : Nat), Val.empty)])) :
    substContains (AbstractMatcher.substFillStep s u) n = false ∨
      List.lookup n (AbstractMatcher.substFillStep s u)
        = some ((0 : Nat), [((0 : Nat), Val.empty)]) := by
  unfold AbstractMatcher.substFillStep
  split
  · by_cases he : n = u.shortName
    · subst he
      exact Or.inr (lookup_substSet_self s _ _)
    · rcases h with h | h
      · exact Or.inl (by rw [substContains, lookup_substSet_ne s _ he]; exact h)
      · exact Or.inr (by rw [lookup_substSet_ne s _ he]; exact h)
  · exact h

theorem substFill_mem (l : List Val) (s : Subst) {p : Val}
    (hp : p ∈ l)
    (h : substContains s p.shortName = false ∨
      List.lookup p.shortName s
        = some ((0 : Nat), [((0 : Nat), Val.empty)])) :
    List.lookup p.shortName (l.foldl AbstractMatcher.substFillStep s)
      = some ((0 : Nat), [((0 : Nat), Val.empty)]) := by
  induction l generalizing s with
  | nil => simp at hp
  | cons u rest ih =>
    rw [List.foldl_cons]
    rcases List.mem_cons.mp hp with h1 | h2
    · subst h1
      rcases h with h | h
      · refine substFill_keepsVal rest _ ?_
        unfold AbstractMatcher.substFillStep
        rw [if_pos (by simp [h])]
        exact lookup_substSet_self s _ _
      · refine substFill_keepsVal rest _ ?_
        unfold AbstractMatcher.substFillStep
        split
        · rename_i hcond
          rw [substContains, h] at hcond
          simp at hcond
        · exact h
    · exact ih _ h2 (substFillStep_pre s u h)

theorem unionLoop_allFail (recur : Recur) (value : BindingCtx) (uT : Val)
    (view : View) (ts : List Val) (subst : Subst) (st : MState)
    (h : ∀ t ∈ ts, ∀ s, (recur s value t subst view).2 = none) :
    (AbstractMatcher.unionLoop recur value uT view st ts subst false).2
      = none := by
  induction ts generalizing st with
  | nil => rfl
  | cons t rest ih =>
    simp only [AbstractMatcher.unionLoop]
    cases hr : recur st value t subst view with
    | mk st' r =>
      cases r with
      | none =>
        exact ih st' (fun t' ht' s => h t' (List.mem_cons_of_mem _ ht') s)
      | some ns =>
        have := h t (List.mem_cons_self t rest) st
        rw [hr] at this
        simp at this

theorem unionLoop_someImp (recur : Recur) (value : BindingCtx) (uT : Val)
    (view : View) (ts : List Val) (subst : Subst) (st : MState) :
    ((AbstractMatcher.unionLoop recur value uT view st ts subst false).2
      ).isSome = true →
    ∃ t ∈ ts, ∃ s₀, ((recur s₀ value t subst view).2).isSome = true := by
  induction ts generalizing st with
  | nil =>
    intro hs
    simp [AbstractMatcher.unionLoop] at hs
  | cons t rest ih =>
    simp only [AbstractMatcher.unionLoop]
    cases hr : recur st value t subst view with
    | mk st' r =>
      cases r with
      | none =>
        intro hs
        obtain ⟨t', ht', s₀, hsucc⟩ := ih st' hs
        exact ⟨t', List.mem_cons_of_mem _ ht', s₀, hsucc⟩
      | some ns =>
        intro _
        exact ⟨t, List.mem_cons_self t rest, st, by rw [hr]; rfl⟩

theorem unionLoop_matched (recur : Recur) (value : BindingCtx) (uT : Val)
    (view : View) :
    ∀ (ts : List Val) (st : MState) (subst : Subst),
      ((AbstractMatcher.unionLoop recur value uT view st ts subst true).2
        ).isSome = true := by
  intro ts
  induction ts with
  | nil => intro st subst; rfl
  | cons t rest ih =>
    intro st subst
    cases hr : recur st value t subst view with
    | mk st' r =>
      cases r with
      | none =>
        simp only [AbstractMatcher.unionLoop, hr]
        exact ih st' subst
      | some ns =>
        simp only [AbstractMatcher.unionLoop, hr]
        by_cases hc : (value.selfB.2.isAmbiguousOrEmpty || t.formal) = true
        · rw [if_pos hc]; exact ih st' ns
        · rw [if_neg hc]; rfl

theorem unionLoop_existsSome (recur : Recur) (value : BindingCtx) (uT : Val)
    (view : View) :
    ∀ (ts : List Val) (st : MState) (subst : Subst) (m : Bool),
      (∃ t ∈ ts, ∀ (st₀ : MState) (s₀ : Subst),
        ((recur st₀ value t s₀ view).2).isSome = true) →
      ((AbstractMatcher.unionLoop recur value uT view st ts subst m).2
        ).isSome = true := by
  intro ts
  induction ts with
  | nil =>
    intro st subst m h
    obtain ⟨t, ht, _⟩ := h
    exact absurd ht (List.not_mem_nil t)
  | cons t' rest ih =>
    intro st subst m h
    cases hr : recur st value t' subst view with
    | mk st' r =>
      cases r with
      | none =>
        simp only [AbstractMatcher.unionLoop, hr]
        obtain ⟨t, ht, hsucc⟩ := h
        rcases List.mem_cons.mp ht with he | hm
        · subst he
          have hfail := hsucc st subst
          rw [hr] at hfail
          exact nomatch hfail
        · exact ih st' subst m ⟨t, hm, hsucc⟩
      | some ns =>
        simp only [AbstractMatcher.unionLoop, hr]
        by_cases hc : (value.selfB.2.isAmbiguousOrEmpty || t'.formal) = true
        · rw [if_pos hc]
          exact unionLoop_matched recur value uT view rest st' ns
        · rw [if_neg hc]; rfl

theorem unionLoop_shortCircuit (recur : Recur) (value : BindingCtx) (uT : Val)
    (view : View) (l₁ : List Val) (t₀ : Val) (l₂ : List Val) (subst : Subst)
    (st' : MState) (s' : Subst)
    (hf : t₀.formal = false)
    (hamb : value.selfB.2.isAmbiguousOrEmpty = false) :
    ∀ st : MState,
      (∀ t ∈ l₁, ∀ s, recur s value t subst view = (s, none)) →
      recur st value t₀ subst view = (st', some s') →
      AbstractMatcher.unionLoop recur value uT view st (l₁ ++ t₀ :: l₂) subst
          false
        = (st', some (AbstractMatcher.substWithTypeParametersFrom s' uT)) := by
  induction l₁ with
  | nil =>
    intro st h1 h0
    simp only [List.nil_append, AbstractMatcher.unionLoop, h0, hamb, hf]
    rfl
  | cons t l₁' ih =>
    intro st h1 h0
    simp only [List.cons_append, AbstractMatcher.unionLoop,
      h1 t (List.mem_cons_self t l₁') st]
    exact ih st (fun t' ht' s => h1 t' (List.mem_cons_of_mem _ ht') s) h0

/-- C3.  Matching a value against a Union formal type: (1) the options are
tried with non-formal options first, otherwise in original order; (2) the
union match succeeds iff at least one option matches — if every option fails
(uniformly in matcher state), the union match fails; if some option matches
(uniformly in matcher state and substitution), the union match succeeds; and
if the union match succeeds then some option's match succeeded from the
incoming substitution; (3) when the first succeeding option in traversal
order is non-formal and the value is not ambiguous, the loop stops there —
the result does not depend on the matcher's behaviour on the remaining
(formal) options — and the returned substitution is the option's result
filled via `_subst_with_type_parameters_from`; (4) that fill binds every
type parameter of the union: parameters not already bound receive an
empty-value variable and existing entries are untouched. -/
theorem c3_union_matching (E : Ext) (recur : Recur) (st : MState) (bid : Nat)
    (dval : Val) (sibs : List CfgB) (opts : List Val) (subst : Subst)
    (view : View)
    (hform : (AbstractMatcher.unwrapFinal dval).formal = false)
    (htpi : (AbstractMatcher.unwrapFinal dval).isCallableTPI = false)
    (hnrl : (AbstractMatcher.unwrapFinal dval).isNoReturn = false)
    (hrec : E.isRecursiveAnnot (Val.union opts) = false) :
    ((AbstractMatcher.unionSorted (AbstractMatcher.pyEnum 0 opts)).map (·.2)
      = opts.filter (fun t => !t.formal) ++ opts.filter (fun t => t.formal)) ∧
    (AbstractMatcher.matchValueAgainstTypeStep E recur st ⟨(bid, dval), sibs⟩
        (Val.union opts) subst view
      = AbstractMatcher.matchUnionRight recur st ⟨(bid, dval), sibs⟩ opts
          (Val.union opts) subst view) ∧
    ((∀ t ∈ opts, ∀ s,
        (recur s ⟨(bid, dval), sibs⟩ t subst view).2 = none) →
      (AbstractMatcher.matchValueAgainstTypeStep E recur st
        ⟨(bid, dval), sibs⟩ (Val.union opts) subst view).2 = none) ∧
    ((∃ t ∈ opts, ∀ (st₀ : MState) (s₀ : Subst),
        ((recur st₀ ⟨(bid, dval), sibs⟩ t s₀ view).2).isSome = true) →
      ((AbstractMatcher.matchValueAgainstTypeStep E recur st
        ⟨(bid, dval), sibs⟩ (Val.union opts) subst view).2).isSome = true) ∧
    (∀ s, (AbstractMatcher.matchValueAgainstTypeStep E recur st
        ⟨(bid, dval), sibs⟩ (Val.union opts) subst view).2 = some s →
      ∃ t ∈ opts, ∃ s₀,
        ((recur s₀ ⟨(bid, dval), sibs⟩ t subst view).2).isSome = true) ∧
    (∀ (l₁ : List Val) (t₀ : Val) (l₂ : List Val) (st' : MState) (s' : Subst),
      (AbstractMatcher.unionSorted (AbstractMatcher.pyEnum 0 opts)).map (·.2)
        = l₁ ++ t₀ :: l₂ →
      (∀ t ∈ l₁, ∀ s, recur s ⟨(bid, dval), sibs⟩ t subst view = (s, none)) →
      recur st ⟨(bid, dval), sibs⟩ t₀ subst view = (st', some s') →
      t₀.formal = false →
      dval.isAmbiguousOrEmpty = false →
      AbstractMatcher.matchValueAgainstTypeStep E recur st ⟨(bid, dval), sibs⟩
          (Val.union opts) subst view
        = (st', some (AbstractMatcher.substWithTypeParametersFrom s'
            (Val.union opts)))) ∧
    (∀ (s : Subst) (typ : Val),
      (∀ p ∈ getTypeParameters typ,
        substContains (AbstractMatcher.substWithTypeParametersFrom s typ)
          p.shortName = true) ∧
      (∀ p ∈ getTypeParameters typ, substContains s p.shortName = false →
        List.lookup p.shortName
          (AbstractMatcher.substWithTypeParametersFrom s typ)
          = some ((0 : Nat), [((0 : Nat), Val.empty)])) ∧
      (∀ n, substContains s n = true →
        List.lookup n (AbstractMatcher.substWithTypeParametersFrom s typ)
          = List.lookup n s)) := by
  have hdispatch : AbstractMatcher.matchValueAgainstTypeStep E recur st
      ⟨(bid, dval), sibs⟩ (Val.union opts) subst view
      = AbstractMatcher.matchUnionRight recur st ⟨(bid, dval), sibs⟩ opts
          (Val.union opts) subst view := by
    unfold AbstractMatcher.matchValueAgainstTypeStep
    dsimp only
    rw [show AbstractMatcher.unwrapFinal (Val.union opts) = Val.union opts
      from rfl]
    rw [hrec]
    simp only [Bool.false_and, Bool.false_eq_true, if_false, hform, htpi]
    rw [if_neg (fun h => nomatch h)]
    rw [if_neg (show ¬((Val.union opts).isNoReturn ||
        (AbstractMatcher.unwrapFinal dval).isNoReturn) = true by
      rw [hnrl]; simp [Val.isNoReturn])]
    rw [if_neg (fun h => nomatch h)]
  refine ⟨unionTraversal_eq opts, hdispatch, ?_, ?_, ?_, ?_, ?_⟩
  · intro hfail
    rw [hdispatch]
    exact unionLoop_allFail recur ⟨(bid, dval), sibs⟩ (Val.union opts) view _
      subst st (fun t ht s =>
        hfail t ((unionTraversal_mem opts t).mp ht) s)
  · intro h
    rw [hdispatch]
    unfold AbstractMatcher.matchUnionRight
    obtain ⟨t, ht, hsucc⟩ := h
    exact unionLoop_existsSome recur ⟨(bid, dval), sibs⟩ (Val.union opts)
      view _ st subst false
      ⟨t, (unionTraversal_mem opts t).mpr ht, hsucc⟩
  · intro s hs
    rw [hdispatch] at hs
    unfold AbstractMatcher.matchUnionRight at hs
    obtain ⟨t, ht, s₀, hsucc⟩ := unionLoop_someImp recur ⟨(bid, dval), sibs⟩
      (Val.union opts) view _ subst st (by rw [hs]; rfl)
    exact ⟨t, (unionTraversal_mem opts t).mp ht, s₀, hsucc⟩
  · intro l₁ t₀ l₂ st' s' hsplit h1 h0 hf hamb
    rw [hdispatch]
    unfold AbstractMatcher.matchUnionRight
    rw [hsplit]
    exact unionLoop_shortCircuit recur ⟨(bid, dval), sibs⟩ (Val.union opts)
      view l₁ t₀ l₂ subst st' s' hf hamb st h1 h0
  · intro s typ
    have hfd : AbstractMatcher.substWithTypeParametersFrom s typ
        = (getTypeParameters typ).foldl AbstractMatcher.substFillStep s := rfl
    refine ⟨?_, ?_, ?_⟩
    · intro p hp
      rw [hfd]
      by_cases hc : substContains s p.shortName = true
      · rw [substContains, substFill_lookup _ s hc]
        exact hc
      · have hc' : substContains s p.shortName = false := by
          cases hcc : substContains s p.shortName with
          | true => exact absurd hcc hc
          | false => rfl
        rw [substContains,
          substFill_mem (getTypeParameters typ) s hp (Or.inl hc')]
        rfl
    · intro p hp hc
      rw [hfd]
      exact substFill_mem (getTypeParameters typ) s hp (Or.inl hc)
    · intro n hn
      rw [hfd]
      exact substFill_lookup (getTypeParameters typ) s hn

theorem c3_witness :
    (((AbstractMatcher.unionSorted (AbstractMatcher.pyEnum 0
        [Val.typeParameter "T" "m.T" [] none, Val.unsolvable])).map (·.2))
      = [Val.typeParameter "T" "m.T" [] none, Val.unsolvable].filter
          (fun t => !t.formal)
        ++ [Val.typeParameter "T" "m.T" [] none, Val.unsolvable].filter
          (fun t => t.formal)) ∧
    (AbstractMatcher.matchValueAgainstTypeStep trivExt trivRecur initState
        ⟨(0, Val.instanceV
            (Val.simpleClass "m.C" false [] false false false [] [])
            "c" [] []), []⟩
        (Val.union [Val.typeParameter "T" "m.T" [] none, Val.unsolvable]) [] []
      = AbstractMatcher.matchUnionRight trivRecur initState
          ⟨(0, Val.instanceV
              (Val.simpleClass "m.C" false [] false false false [] [])
              "c" [] []), []⟩
          [Val.typeParameter "T" "m.T" [] none, Val.unsolvable]
          (Val.union [Val.typeParameter "T" "m.T" [] none, Val.unsolvable])
          [] []) := by
  have h := c3_union_matching trivExt trivRecur initState 0
    (Val.instanceV (Val.simpleClass "m.C" false [] false false false [] [])
      "c" [] []) []
    [Val.typeParameter "T" "m.T" [] none, Val.unsolvable] [] []
    (by simp [AbstractMatcher.unwrapFinal, Val.formal])
    (by simp [AbstractMatcher.unwrapFinal, Val.isCallableTPI])
    (by simp [AbstractMatcher.unwrapFinal, Val.isNoReturn])
    rfl
  exact ⟨h.1, h.2.1⟩

/-! ## Claim C1: cache lifetime across top-level calls -/

theorem computeSubstLoop_caches (E : Ext) (mf : Recur)
    (ad : List (String × BindingCtx)) (view : View)
    (hmf : ∀ s v t sub vw,
      ((mf s v t sub vw).1).protocolCache = s.protocolCache ∧
      ((mf s v t sub vw).1).recursiveAnnotsCache = s.recursiveAnnotsCache) :
    ∀ (fa : List (String × Val)) (st : MState) (subst : Subst)
      (ss : Option Subst),
      ((AbstractMatcher.computeSubstLoop E mf ad view st fa subst ss).1
        ).protocolCache = st.protocolCache ∧
      ((AbstractMatcher.computeSubstLoop E mf ad view st fa subst ss).1
        ).recursiveAnnotsCache = st.recursiveAnnotsCache := by
  intro fa
  induction fa with
  | nil => intro st subst ss; exact ⟨rfl, rfl⟩
  | cons p rest ih =>
    intro st subst ss
    obtain ⟨n, f⟩ := p
    have h := hmf st ((List.lookup n ad).getD ⟨(0, .unsolvable), []⟩) f subst
      view
    cases hr : mf st ((List.lookup n ad).getD ⟨(0, .unsolvable), []⟩) f subst
        view with
    | mk st' r =>
      rw [hr] at h
      cases r with
      | none =>
        simp only [AbstractMatcher.computeSubstLoop, hr]
        exact ⟨h.1, h.2⟩
      | some s' =>
        simp only [AbstractMatcher.computeSubstLoop, hr]
        have h2 := ih st' s' (if n == "self" then some s' else ss)
        exact ⟨h2.1.trans h.1, h2.2.trans h.2⟩

theorem badMatchesLoop_caches
    (mv : MState → PVar → Val → Subst → View → MState × Option Subst)
    (hc : View → Bool) (var : PVar) (ot : Val)
    (hmv : ∀ s v t sub vw,
      ((mv s v t sub vw).1).protocolCache = s.protocolCache ∧
      ((mv s v t sub vw).1).recursiveAnnotsCache = s.recursiveAnnotsCache) :
    ∀ (views : List View) (st : MState) (acc : List (View × ErrorDetails)),
      ((AbstractMatcher.badMatchesLoop mv hc var ot st views acc).1
        ).protocolCache = st.protocolCache ∧
      ((AbstractMatcher.badMatchesLoop mv hc var ot st views acc).1
        ).recursiveAnnotsCache = st.recursiveAnnotsCache := by
  intro views
  induction views with
  | nil => intro st acc; exact ⟨rfl, rfl⟩
  | cons v rest ih =>
    intro st acc
    have h := hmv
      { st with
          protocolError := none
          noniterableStrError := none } var ot [] v
    cases hr : mv
        { st with
            protocolError := none
            noniterableStrError := none } var ot [] v with
    | mk st' r =>
      rw [hr] at h
      cases r with
      | none =>
        simp only [AbstractMatcher.badMatchesLoop, hr]
        by_cases hcv : hc v = true
        · rw [if_pos hcv]
          have h2 := ih st' (acc ++ [(v, errorDetails st')])
          exact ⟨h2.1.trans h.1, h2.2.trans h.2⟩
        · rw [if_neg hcv]
          have h2 := ih st' acc
          exact ⟨h2.1.trans h.1, h2.2.trans h.2⟩
      | some s =>
        simp only [AbstractMatcher.badMatchesLoop, hr]
        have h2 := ih st' acc
        exact ⟨h2.1.trans h.1, h2.2.trans h.2⟩

theorem c1_counterexample :
    ((AbstractMatcher.computeSubst recExt recMatchFn initState
        [("x", Val.unsolvable)]
        [("x", ⟨(0, Val.unknown), [(0, Val.unknown)]⟩)] []).1
      ).recursiveAnnotsCache = [(Val.unknown, Val.unsolvable)] ∧
    ((AbstractMatcher.computeSubstEntry
        (AbstractMatcher.computeSubst recExt recMatchFn initState
          [("x", Val.unsolvable)]
          [("x", ⟨(0, Val.unknown), [(0, Val.unknown)]⟩)] []).1
      ).recursiveAnnotsCache = [(Val.unknown, Val.unsolvable)]) ∧
    ((AbstractMatcher.computeSubst recExt recMatchFn
        (AbstractMatcher.computeSubst recExt recMatchFn initState
          [("x", Val.unsolvable)]
          [("x", ⟨(0, Val.unknown), [(0, Val.unknown)]⟩)] []).1
        [("x", Val.unsolvable)]
        [("x", ⟨(0, Val.unknown), [(0, Val.unknown)]⟩)] []).1
      ).recursiveAnnotsCache = [(Val.unknown, Val.unsolvable)] := by
  refine ⟨?_, ?_, ?_⟩ <;>
    simp [AbstractMatcher.computeSubst, AbstractMatcher.computeSubstEntry,
      AbstractMatcher.computeSubstLoop, recMatchFn,
      AbstractMatcher.matchValueAgainstTypeStep, recExt, trivExt, trivRecur,
      AbstractMatcher.unwrapFinal, Val.formal, Val.isUnsolvable,
      Val.isCallableTPI, Val.isTypeParameter, Val.isNoReturn, Val.isClass,
      Val.isAmbiguous, Val.isEmptyVal, List.contains, List.elem, Val.beq,
      errorDetails, initState]

/-- C1 (amended).  The caches `protocol_cache` and `recursive_annots_cache`
are created empty when the matcher is constructed and are never reset by the
top-level drivers: `compute_subst` on a non-empty `arg_dict` clears only the
three error slots at entry (protocol error, non-iterable-str error, error
substitution) and leaves both caches and the typed-dict error untouched;
with an empty `arg_dict` it returns immediately, touching no state; and
whenever the per-value matcher preserves the caches, a whole `compute_subst`
or `bad_matches` call preserves them as well, so entries recorded during one
top-level call remain visible to later top-level calls on the same
matcher. -/
theorem c1_amended :
    (initState.protocolCache = [] ∧ initState.recursiveAnnotsCache = []) ∧
    (∀ st : MState,
      (AbstractMatcher.computeSubstEntry st).protocolCache
        = st.protocolCache ∧
      (AbstractMatcher.computeSubstEntry st).recursiveAnnotsCache
        = st.recursiveAnnotsCache ∧
      (AbstractMatcher.computeSubstEntry st).typedDictError
        = st.typedDictError ∧
      (AbstractMatcher.computeSubstEntry st).protocolError = none ∧
      (AbstractMatcher.computeSubstEntry st).noniterableStrError = none ∧
      (AbstractMatcher.computeSubstEntry st).errorSubst = none) ∧
    (∀ (E : Ext) (mf : Recur) (st : MState) (fa : List (String × Val))
        (view : View),
      AbstractMatcher.computeSubst E mf st fa [] view = (st, some [], none)) ∧
    (∀ (E : Ext) (mf : Recur) (st : MState) (fa : List (String × Val))
        (ad : List (String × BindingCtx)) (view : View),
      (∀ s v t sub vw,
        ((mf s v t sub vw).1).protocolCache = s.protocolCache ∧
        ((mf s v t sub vw).1).recursiveAnnotsCache
          = s.recursiveAnnotsCache) →
      ((AbstractMatcher.computeSubst E mf st fa ad view).1.protocolCache
          = st.protocolCache ∧
       (AbstractMatcher.computeSubst E mf st fa ad view).1.recursiveAnnotsCache
          = st.recursiveAnnotsCache)) ∧
    (∀ (mv : MState → PVar → Val → Subst → View → MState × Option Subst)
        (hc : View → Bool) (st : MState) (var : PVar) (ot : Val)
        (views : List View),
      (∀ s v t sub vw,
        ((mv s v t sub vw).1).protocolCache = s.protocolCache ∧
        ((mv s v t sub vw).1).recursiveAnnotsCache
          = s.recursiveAnnotsCache) →
      ((AbstractMatcher.badMatches mv hc st var ot views).1.protocolCache
          = st.protocolCache ∧
       (AbstractMatcher.badMatches mv hc st var ot views).1.recursiveAnnotsCache
          = st.recursiveAnnotsCache)) := by
  refine ⟨⟨rfl, rfl⟩, fun st => ⟨rfl, rfl, rfl, rfl, rfl, rfl⟩,
    fun E mf st fa view => rfl, ?_, ?_⟩
  · intro E mf st fa ad view hmf
    unfold AbstractMatcher.computeSubst
    by_cases had : ad.isEmpty = true
    · rw [if_pos had]; exact ⟨rfl, rfl⟩
    · rw [if_neg had]
      have h := computeSubstLoop_caches E mf ad view hmf fa
        (AbstractMatcher.computeSubstEntry st) [] none
      cases hr : AbstractMatcher.computeSubstLoop E mf ad view
          (AbstractMatcher.computeSubstEntry st) fa [] none with
      | mk st' r =>
        rw [hr] at h
        cases r with
        | error bp => simp only [hr]; exact ⟨h.1, h.2⟩
        | ok pr => simp only [hr]; exact ⟨h.1, h.2⟩
  · intro mv hc st var ot views hmv
    unfold AbstractMatcher.badMatches
    by_cases hsc : ((var.2.map (·.2)) == [Val.unsolvable]
        || ot == Val.unsolvable) = true
    · rw [if_pos hsc]; exact ⟨rfl, rfl⟩
    · rw [if_neg hsc]
      exact badMatchesLoop_caches mv hc var ot hmv views st []

theorem c1_witness :
    ((AbstractMatcher.computeSubst trivExt trivRecur
        { initState with
            protocolCache := [(Val.unknown, Val.noReturn)]
            recursiveAnnotsCache := [(Val.unknown, Val.unsolvable)] }
        [("x", Val.unsolvable)] [("x", ⟨(0, Val.empty), []⟩)] []).1
      ).protocolCache = [(Val.unknown, Val.noReturn)] ∧
    ((AbstractMatcher.badMatches (fun st _ _ s _ => (st, some s))
        (fun _ => true)
        { initState with
            protocolCache := [(Val.unknown, Val.noReturn)]
            recursiveAnnotsCache := [(Val.unknown, Val.unsolvable)] }
        (0, [(0, Val.empty)]) Val.empty [[]]).1
      ).recursiveAnnotsCache = [(Val.unknown, Val.unsolvable)] := by
  constructor
  · exact (c1_amended.2.2.2.1 trivExt trivRecur
      { initState with
          protocolCache := [(Val.unknown, Val.noReturn)]
          recursiveAnnotsCache := [(Val.unknown, Val.unsolvable)] }
      [("x", Val.unsolvable)] [("x", ⟨(0, Val.empty), []⟩)] []
      (fun s v t sub vw => ⟨rfl, rfl⟩)).1
  · exact (c1_amended.2.2.2.2 (fun st _ _ s _ => (st, some s))
      (fun _ => true)
      { initState with
          protocolCache := [(Val.unknown, Val.noReturn)]
          recursiveAnnotsCache := [(Val.unknown, Val.unsolvable)] }
      (0, [(0, Val.empty)]) Val.empty [[]]
      (fun s v t sub vw => ⟨rfl, rfl⟩)).2

end PytypeMatcher
